import Mathlib

/-!
# Verification of the number formatter of `als-basic-utilities`

Shallow embedding of `als::utilities::to_string(long double, ...)` (src/ToString.cpp,
lines 34-131) and of the helpers it uses, of the integer, complex and container overloads
of `to_string` (src/ToString.hpp), of `sgn` (src/FormatNumber.hpp) and of the binary file
routines `write_to_file` and `read_from_file` (src/FileOperations.hpp).

Modelling conventions.

* A `long double` is `LongDouble`: a finite value (an exact rational; every finite
  floating-point number is a dyadic rational, and both zeros are `finite 0`), an
  infinity, or NaN.
* Floating-point arithmetic on finite values is exact rational arithmetic:
  `std::fabs` is the absolute value, `*` and `/` are exact, `std::round` rounds half
  away from zero, and `std::floor (std::log10 a)` is the greatest integer `k` with
  `10 ^ k ≤ a` (`Int.log 10 a`). The narrowing of `log10_x` to `double` (line 58) and of
  the argument of the unqualified `round` (line 74) is not modelled.
* The `double log10_x` is represented by the positive rational `a` it is the decimal
  logarithm of (`log10_x = log10 a`), so `log10_x >= n` is `10 ^ n ≤ a` and
  `log10_x <= n` is `a ≤ 10 ^ n`. The source's `log10_x := 0` for `x == 0` is `a = 1`.
* The `int` and `unsigned int` expressions over `precision` and `exponent` are
  computed in the integers: the documented precondition `precision <= 19` and the
  exponent range of a `long double` keep them far below `2 ^ 31`. A conversion to an
  unsigned type of a value known to be non-negative is `Int.toNat`. The
  `unsigned long long` product of line 116 wraps modulo `2 ^ 64`.
* The power-of-ten table behind `long_double_pow10` and `long_pow10` (FormatNumber.cpp) is
  not among the sources; it is modelled from spec 4.1 as `10 ^ n`, a total function. The
  table's domain `[0, MAX_TABLE_EXP]` is tracked by `pow10_lookups`, and
  `to_string_checked` is the formatter on the calls that stay in the domain (a lookup
  outside it is a caller error, `none`).
* `std::string::insert` throws `std::out_of_range` when the position exceeds the
  length: the formatter returns an `Option String`, `none` being that exception.
* `std::to_string` of an integer is its decimal string, `toString`.
* A container (`std::vector`, `std::map`) is the list of its elements in iteration order
  and an iterator is a position in that list; dereferencing an iterator that is not below
  `end()` is undefined behaviour, modelled as `none`. The calls on the elements are
  parameters (`fmt`), already applied to the mode and the extra arguments.
* A stream `FILE*` is the list of its bytes and a read position; `fwrite` appends at the
  end. An `int` is 4 bytes, two's complement, little-endian (the round-trip results do not
  depend on the byte order). An `fread` that cannot be completed leaves its object
  indeterminate and is modelled as `none`.
-/

namespace als.utilities

/-- The enum class `RepresentationType` of src/ToString.hpp. -/
inductive RepresentationType
  | PLAIN
  | LATEX
  deriving DecidableEq, Repr

/-- A `long double` value. -/
inductive LongDouble
  | finite (q : ℚ)
  | inf (negative : Bool)
  | nan

/-- Modelled from the spec: `long_double_pow10` is declared in src/FormatNumber.hpp but
its table (FormatNumber.cpp) is missing. Spec 4.1: "return 10^exponent for a small
non-negative exponent, as ... a wide floating-point"; the valid domain of the table is
`[0, MAX_TABLE_EXP]`, see `MAX_TABLE_EXP` and `pow10_lookups`. The definition is total; a
lookup outside the domain has no defined value in the program ("undefined/fails fast"),
which `to_string_checked` accounts for. -/
def long_double_pow10 (exponent : Nat) : ℚ := 10 ^ exponent

/-- Modelled from the spec: `long_pow10` is declared in src/FormatNumber.hpp but
its table (FormatNumber.cpp) is missing. Spec 4.1: "return 10^exponent for a small
non-negative exponent, as ... a wide unsigned integer"; the valid domain of the table is
`[0, MAX_TABLE_EXP]`, see `MAX_TABLE_EXP` and `pow10_lookups`. The definition is total and
unbounded; on the domain its values are below `2^64`, and a lookup outside the domain has
no defined value in the program, which `to_string_checked` accounts for. -/
def long_pow10 (exponent : Nat) : Nat := 10 ^ exponent

/-- Modelled from the spec: the largest exponent of the power-of-ten table, "19 for a
64-bit unsigned" (spec 4.1). -/
def MAX_TABLE_EXP : Nat := 19

/-- The function `std::round`: nearest integer, halfway cases away from zero. -/
def std_round (r : ℚ) : Int := if 0 ≤ r then ⌊r + 1 / 2⌋ else ⌈r - 1 / 2⌉

/-- The method `std::string::insert(pos, str)`; `none` is `std::out_of_range`. -/
def string_insert (s : String) (pos : Nat) (str : String) : Option String :=
  if pos ≤ s.length then some ⟨s.data.take pos ++ str.data ++ s.data.drop pos⟩ else none

/-- The constructor `std::string(count, ch)`. -/
def string_fill (count : Nat) (ch : Char) : String := ⟨List.replicate count ch⟩

/-- The argument of `std::log10` on line 58 of src/ToString.cpp: `log10_x` is its decimal
logarithm. For `x == 0` the source sets `log10_x` to `0`, the logarithm of `1`. -/
def log10_arg (x : ℚ) (precision : Nat) : ℚ :=
  if x ≠ 0 then |x| * (1 + 1 / long_double_pow10 (precision + 1)) else 1

/-- The variable `exponent` (line 69): `(int) std::floor(log10_x)`, for the exact logarithm
(the source keeps `log10_x` in a `double`). -/
def exponent_of (x : ℚ) (precision : Nat) : Int := Int.log 10 (log10_arg x precision)

/-- The variable `base` (lines 72-74), as a function of `exponent`, in exact arithmetic:
`std::round` (line 73) and the unqualified `round` (line 74) both round the exact quotient
or product. The converted value is a natural number; on a call that stays in the
power-of-ten table it is below `2^64` (`base_of_lt_two_pow_64`). -/
def base_of (x : ℚ) (precision : Nat) (exponent : Int) : Nat :=
  if exponent - (precision : Int) + 1 ≥ 0 then
    (std_round (|x| / long_double_pow10 (exponent - precision + 1).toNat)).toNat
  else
    (std_round (|x| * long_double_pow10 (precision - exponent - 1).toNat)).toNat

/-- The variable `sign` (lines 77-85). -/
def sign_of (x : ℚ) (show_sign : Bool) : String :=
  if x > 0 ∧ show_sign = true then "+" else if x < 0 then "-" else ""

/-- The condition of line 88: `log10_x >= lim_sup || log10_x <= lim_inf`, for the exact
logarithm. -/
def scientific (x : ℚ) (precision : Nat) (lim_inf lim_sup : Int) : Bool :=
  decide ((10 : ℚ) ^ lim_sup ≤ log10_arg x precision ∨ log10_arg x precision ≤ (10 : ℚ) ^ lim_inf)

/-- Lines 87-128 of src/ToString.cpp: the string built from `sign`, `exponent` and `base`
once the notation has been chosen (`sci` is the condition of line 88). -/
def render (rt : RepresentationType) (precision : Nat) (sign : String) (sci : Bool)
    (exponent : Int) (base : Nat) : Option String :=
  if sci then
    if base = long_pow10 (precision - 1) then
      some (sign ++ (if rt = RepresentationType.LATEX
        then "10^\x7b" ++ toString exponent ++ "\x7d"
        else "10^(" ++ toString exponent ++ ")"))
    else
      let end_ := if rt = RepresentationType.LATEX
        then "\\cdot 10^\x7b" ++ toString exponent ++ "\x7d"
        else "*10^(" ++ toString exponent ++ ")"
      (string_insert (toString base) 1 ".").map (fun m => sign ++ m ++ end_)
  else
    if base = 0 then
      some ("0." ++ string_fill (precision - 1) '0')
    else
      if exponent ≥ 0 then
        if exponent + 1 ≥ (precision : Int) then
          some (sign ++ toString (base * long_pow10 (exponent + 1 - precision).toNat % 2 ^ 64))
        else
          (string_insert (toString base) (exponent + 1).toNat ".").map (fun m => sign ++ m)
      else
        some (sign ++ "0." ++ string_fill (-exponent - 1).toNat '0' ++ toString base)

/-- The function `als::utilities::to_string(long double, ...)`, src/ToString.cpp lines 34-131. -/
def to_string (x : LongDouble) (rt : RepresentationType) (precision : Nat)
    (show_sign : Bool) (lim_inf lim_sup : Int) : Option String :=
  if precision = 0 then
    some "0"
  else
    match x with
    | LongDouble.inf _ => some (if rt = RepresentationType.PLAIN then "inf" else "\\infty")
    | LongDouble.nan =>
      some (if rt = RepresentationType.PLAIN then "NaN" else "\\mathrm\x7bNaN\x7d")
    | LongDouble.finite q =>
      render rt precision (sign_of q show_sign) (scientific q precision lim_inf lim_sup)
        (exponent_of q precision) (base_of q precision (exponent_of q precision))

/-- The exponents that `to_string(long double, ...)` passes to `long_double_pow10` and
`long_pow10` on the path it takes: line 58 (`precision + 1`, only for `x != 0`), lines 73-74
(`exponent - precision + 1` or `precision - exponent - 1`), line 91 (`precision - 1`, in
scientific notation) and line 116 (`exponent + 1 - precision`, fixed-point integer branch). -/
def pow10_lookups (x : LongDouble) (precision : Nat) (lim_inf lim_sup : Int) : List Nat :=
  if precision = 0 then
    []
  else
    match x with
    | LongDouble.inf _ => []
    | LongDouble.nan => []
    | LongDouble.finite q =>
      let exponent := exponent_of q precision
      let base := base_of q precision exponent
      (if q ≠ 0 then [precision + 1] else []) ++
      [if exponent - (precision : Int) + 1 ≥ 0 then (exponent - precision + 1).toNat
        else (precision - exponent - 1).toNat] ++
      (if scientific q precision lim_inf lim_sup then [precision - 1]
        else if base ≠ 0 ∧ exponent ≥ 0 ∧ exponent + 1 ≥ (precision : Int)
          then [(exponent + 1 - precision).toNat] else [])

/-- The output `s` contains the text `t`. -/
def contains (s t : String) : Prop := t.data <:+: s.data

instance contains_decidable (s t : String) : Decidable (contains s t) := by
  unfold contains; infer_instance

/-- The output `s` begins with the text `t`. -/
def begins_with (s t : String) : Prop := t.data <+: s.data

instance begins_with_decidable (s t : String) : Decidable (begins_with s t) := by
  unfold begins_with; infer_instance

/-- The function `als::utilities::to_string(const unsigned long long, ...)`, src/ToString.cpp
lines 22-26; `val` is below `2 ^ 64`. -/
def to_string_unsigned_long_long (val : Nat) (_rt : RepresentationType) (show_sign : Bool) :
    String :=
  (if val > 0 ∧ show_sign = true then "+" else "") ++ toString val

/-- The function `als::utilities::to_string(const long long, ...)`, src/ToString.cpp
lines 28-32; `val` lies in `[-2 ^ 63, 2 ^ 63)`. -/
def to_string_long_long (val : Int) (_rt : RepresentationType) (show_sign : Bool) : String :=
  (if val > 0 ∧ show_sign = true then "+" else "") ++ toString val

/-- The loop of src/ToString.hpp lines 289-292 over the elements of a container whose
iterator arithmetic is done on positions: the iterator `it` starts at `object.begin() + 1`
and the loop runs until `it` equals `object.end()` (position `object.length`), appending
`", "` and the formatted element; dereferencing an iterator that is not below
`object.end()` is undefined behaviour (`none`). `fuel` bounds the number of iterations;
`object.length + 1` always suffices. -/
def container_loop {α : Type} (fmt : α → String) (object : List α) :
    Nat → Nat → String → Option String
  | 0, _, _ => none
  | fuel + 1, it, text =>
    if it = object.length then some text
    else
      match object[it]? with
      | some x => container_loop fmt object fuel (it + 1) (text ++ (", " ++ fmt x))
      | none => none

/-- The function template `to_string(const std::vector<T>&, rt, args...)`, src/ToString.hpp
lines 276-295. The vector is the list of its elements; `fmt rt args e` is the call
`als::utilities::to_string(e, rt, args...)` on an element. -/
def to_string_vector {α Args : Type} (fmt : RepresentationType → Args → α → String)
    (object : List α) (rt : RepresentationType) (args : Args) : Option String :=
  let pre := if rt = RepresentationType.LATEX then "\\left[" else "["
  let post := if rt = RepresentationType.LATEX then "\\right]" else "]"
  let text := ""
  let text := if object.length ≥ 1 then
      match object with
      | x :: _ => text ++ fmt rt args x
      | [] => text
    else text
  (container_loop (fmt rt args) object (object.length + 1) 1 text).map
    (fun text => pre ++ text ++ post)

/-- The function template `to_string(const std::map<K, T>&, rt, args...)`, src/ToString.hpp
lines 444-470. The map is the list of its entries in key order (its iteration order);
`object.begin() + 1` is read as the iterator one position after `begin()`.
`fmt_key rt k` is the call `als::utilities::to_string(k, rt)` on a key and
`fmt_val rt args v` is the call `als::utilities::to_string(v, rt, args...)` on a value. -/
def to_string_map {κ τ Args : Type} (fmt_key : RepresentationType → κ → String)
    (fmt_val : RepresentationType → Args → τ → String)
    (object : List (κ × τ)) (rt : RepresentationType) (args : Args) : Option String :=
  let pre := if rt = RepresentationType.LATEX then "\\left\\\x7b" else "\x7b"
  let post := if rt = RepresentationType.LATEX then "\\right\\\x7d" else "\x7d"
  let text := ""
  let text := if object.length ≥ 1 then
      match object with
      | x :: _ => text ++ (fmt_key rt x.1 ++ ": " ++ fmt_val rt args x.2)
      | [] => text
    else text
  (container_loop (fun x => fmt_key rt x.1 ++ ": " ++ fmt_val rt args x.2) object
      (object.length + 1) 1 text).map
    (fun text => pre ++ text ++ post)

/-- The function template `sgn` of src/FormatNumber.hpp, lines 79-82, on an integer type:
`(T(0) < val) - (val < T(0))`, each comparison converted to `int`. -/
def sgn (val : Int) : Int := (if 0 < val then 1 else 0) - (if val < 0 then 1 else 0)

/-- A `long double` compared with zero: `x < 0` (false for NaN). -/
def LongDouble.lt_zero : LongDouble → Bool
  | LongDouble.finite q => decide (q < 0)
  | LongDouble.inf negative => negative
  | LongDouble.nan => false

/-- The negation `-x` of a `long double`. -/
def LongDouble.neg : LongDouble → LongDouble
  | LongDouble.finite q => LongDouble.finite (-q)
  | LongDouble.inf negative => LongDouble.inf (!negative)
  | LongDouble.nan => LongDouble.nan

/-- The function template `to_string(const std::complex<K>&, rt, args...)`, src/ToString.hpp
lines 236-253, for `K = long double` and the extra arguments `precision, show_sign,
lim_inf, lim_sup` of the number formatter; `re` and `im` are `z.real()` and `z.imag()`. -/
def to_string_complex (re im : LongDouble) (rt : RepresentationType) (precision : Nat)
    (show_sign : Bool) (lim_inf lim_sup : Int) : Option String :=
  let i := if rt = RepresentationType.PLAIN then "i" else "\\mathrm\x7bi\x7d"
  if im.lt_zero = true then
    (to_string re rt precision show_sign lim_inf lim_sup).bind fun r =>
    (to_string im.neg rt precision show_sign lim_inf lim_sup).bind fun m =>
    some (r ++ " - " ++ m ++ i)
  else
    (to_string re rt precision show_sign lim_inf lim_sup).bind fun r =>
    (to_string im rt precision show_sign lim_inf lim_sup).bind fun m =>
    some (r ++ " + " ++ m ++ i)

/-- A stream `FILE*`: the bytes of the file and the position of the next read. Writing
appends at the end of the file. -/
structure FILE where
  data : List Nat
  pos : Nat
  deriving DecidableEq, Repr

/-- The call `fwrite(ptr, 1, n, file)` with the `n` bytes `bytes` at `ptr`. -/
def fwrite (bytes : List Nat) (file : FILE) : FILE :=
  { file with data := file.data ++ bytes }

/-- The call `fread(ptr, size, 1, file)`: the next `size` bytes and the advanced stream;
`none` when fewer than `size` bytes are left (the object read is then indeterminate). -/
def fread (size : Nat) (file : FILE) : Option (List Nat × FILE) :=
  if file.pos + size ≤ file.data.length then
    some ((file.data.drop file.pos).take size, { file with pos := file.pos + size })
  else none

/-- The value `sizeof(int)` (and `sizeof(unsigned int)`) of the usual ABIs. -/
def sizeof_int : Nat := 4

/-- The object representation of an `unsigned int` (little-endian, 4 bytes). -/
def unsigned_int_bytes (n : Nat) : List Nat :=
  [n % 256, n / 256 % 256, n / 65536 % 256, n / 16777216 % 256]

/-- The `unsigned int` whose object representation is `bytes`. -/
def unsigned_int_of_bytes : List Nat → Nat
  | [b0, b1, b2, b3] => b0 + 256 * b1 + 65536 * b2 + 16777216 * b3
  | _ => 0

/-- The object representation of an `int` (two's complement, little-endian, 4 bytes). -/
def int_bytes (v : Int) : List Nat := unsigned_int_bytes (v % 2 ^ 32).toNat

/-- The `int` whose object representation is `bytes`. -/
def int_of_bytes (bytes : List Nat) : Int :=
  if unsigned_int_of_bytes bytes < 2 ^ 31 then (unsigned_int_of_bytes bytes : Int)
  else (unsigned_int_of_bytes bytes : Int) - 2 ^ 32

/-- The function `write_to_file(const int&, FILE*)`, src/FileOperations.hpp lines 66-69. -/
def write_to_file_int (val : Int) (file : FILE) : FILE := fwrite (int_bytes val) file

/-- The function `read_from_file(int&, FILE*)`, lines 216-219: the value read and the
advanced stream. -/
def read_from_file_int (file : FILE) : Option (Int × FILE) :=
  (fread sizeof_int file).map fun r => (int_of_bytes r.1, r.2)

/-- The function `write_to_file(const unsigned int&, FILE*)`, lines 71-74. -/
def write_to_file_unsigned_int (val : Nat) (file : FILE) : FILE :=
  fwrite (unsigned_int_bytes val) file

/-- The function `read_from_file(unsigned int&, FILE*)`, lines 221-224. -/
def read_from_file_unsigned_int (file : FILE) : Option (Nat × FILE) :=
  (fread sizeof_int file).map fun r => (unsigned_int_of_bytes r.1, r.2)

/-- The function `write_to_file(const char&, FILE*)`, lines 46-49; a `char` is one byte. -/
def write_to_file_char (val : Nat) (file : FILE) : FILE := fwrite [val] file

/-- The function `read_from_file(char&, FILE*)`, lines 191-194. -/
def read_from_file_char (file : FILE) : Option (Nat × FILE) :=
  (fread 1 file).map fun r => (r.1.headD 0, r.2)

/-- The function `write_to_file(const bool&, FILE*)`, lines 116-119: `(char) val`. -/
def write_to_file_bool (val : Bool) (file : FILE) : FILE :=
  write_to_file_char (if val then 1 else 0) file

/-- The function `read_from_file(bool&, FILE*)`, lines 266-271: `val = temp`, the
conversion of a `char` to `bool`. -/
def read_from_file_bool (file : FILE) : Option (Bool × FILE) :=
  (read_from_file_char file).map fun r => (decide (r.1 ≠ 0), r.2)

/-- A primitive type `K` written with `fwrite(&val, sizeof(K), 1, file)` and read with
`fread(&val, sizeof(K), 1, file)`: its size and its object representation. -/
structure Primitive (K : Type) where
  sizeof : Nat
  to_bytes : K → List Nat
  of_bytes : List Nat → K

/-- The primitive overloads `write_to_file(const K&, FILE*)`, lines 41-114. -/
def write_to_file_primitive {K : Type} (P : Primitive K) (val : K) (file : FILE) : FILE :=
  fwrite (P.to_bytes val) file

/-- The primitive overloads `read_from_file(K&, FILE*)`, lines 191-264. -/
def read_from_file_primitive {K : Type} (P : Primitive K) (file : FILE) : Option (K × FILE) :=
  (fread P.sizeof file).map fun r => (P.of_bytes r.1, r.2)

/-- The function template `write_to_file(const std::complex<K>&, FILE*)`, lines 127-132;
`z` is the pair of `z.real()` and `z.imag()`. -/
def write_to_file_complex {K : Type} (P : Primitive K) (z : K × K) (file : FILE) : FILE :=
  write_to_file_primitive P z.2 (write_to_file_primitive P z.1 file)

/-- The function template `read_from_file(std::complex<K>&, FILE*)`, lines 286-293. -/
def read_from_file_complex {K : Type} (P : Primitive K) (file : FILE) :
    Option ((K × K) × FILE) :=
  (read_from_file_primitive P file).bind fun x =>
  (read_from_file_primitive P x.2).bind fun y =>
  some ((x.1, y.1), y.2)

/-- The primitive type `int`. -/
def int_primitive : Primitive Int :=
  { sizeof := sizeof_int, to_bytes := int_bytes, of_bytes := int_of_bytes }

/-- The function `write_to_file(const std::string&, FILE*)`, lines 121-125; a string is the
list of its bytes. The size is written as an `unsigned int`, then `str.size() + 1` bytes
of `str.c_str()`: the characters and the terminating NUL. -/
def write_to_file_string (str : List Nat) (file : FILE) : FILE :=
  fwrite (str ++ [0]) (write_to_file_unsigned_int (str.length % 2 ^ 32) file)

/-- The loop of lines 278-281: `N` calls `fread(str + i, sizeof(char), 1, file)`. -/
def read_chars : Nat → FILE → Option (List Nat × FILE)
  | 0, file => some ([], file)
  | n + 1, file =>
    (fread 1 file).bind fun r =>
    (read_chars n r.2).map fun rest => (r.1 ++ rest.1, rest.2)

/-- The conversion `std::string(str)` of line 282 from the buffer `char str[N]`: the
characters before the first NUL; `none` (undefined behaviour) when the buffer holds no NUL,
since the constructor then reads beyond the buffer. -/
def string_of_buffer (buffer : List Nat) : Option (List Nat) :=
  if 0 ∈ buffer then some (buffer.takeWhile (fun c => c ≠ 0)) else none

/-- The function `read_from_file(std::string&, FILE*)`, lines 273-284: the stream after
the call and the string assigned to `val` (`none` when `std::string(str)` is undefined
behaviour); the outer `none` is an incomplete `fread`. -/
def read_from_file_string (file : FILE) : Option (Option (List Nat) × FILE) :=
  (read_from_file_unsigned_int file).bind fun n =>
  (read_chars n.1 n.2).map fun r => (string_of_buffer r.1, r.2)

/-- The loop of lines 147-150: from `object.begin() + 1` until `object.end()`, each element
is written; dereferencing an iterator that is not below `object.end()` is undefined
behaviour (`none`). `fuel` bounds the number of iterations. -/
def vector_write_loop (object : List Int) : Nat → Nat → FILE → Option FILE
  | 0, _, _ => none
  | fuel + 1, it, file =>
    if it = object.length then some file
    else
      match object[it]? with
      | some x => vector_write_loop object fuel (it + 1) (write_to_file_int x file)
      | none => none

/-- The function template `write_to_file(const std::vector<T>&, FILE*)`, lines 143-151,
for `T = int`. -/
def write_to_file_vector (object : List Int) (file : FILE) : Option FILE :=
  vector_write_loop object (object.length + 1) 1
    (write_to_file_unsigned_int (object.length % 2 ^ 32) file)

/-- The loop of lines 311-314: from `object.begin() + 1` until `object.end()`, each element
is read in place. -/
def vector_read_loop : Nat → Nat → List Int → FILE → Option (List Int × FILE)
  | 0, _, _, _ => none
  | fuel + 1, it, object, file =>
    if it = object.length then some (object, file)
    else if it < object.length then
      (read_from_file_int file).bind fun r =>
      vector_read_loop fuel (it + 1) (object.set it r.1) r.2
    else none

/-- The function template `read_from_file(std::vector<T>&, FILE*)`, lines 305-315, for
`T = int`: `std::vector<int>(size)` holds `size` zeros. -/
def read_from_file_vector (file : FILE) : Option (List Int × FILE) :=
  (read_from_file_unsigned_int file).bind fun size =>
  vector_read_loop (size.1 + 1) 1 (List.replicate size.1 0) size.2

/-- The natural number denoted by a string of decimal digits. -/
def digits_value (cs : List Char) : Nat :=
  cs.foldl (fun acc c => 10 * acc + (c.toNat - 48)) 0

/-- The decimal number denoted by an unsigned fixed-point string: decimal digits with at most
one decimal point. -/
def decimal_value (s : String) : ℚ :=
  (digits_value (s.data.takeWhile (fun c => c ≠ '.') ++
      (s.data.dropWhile (fun c => c ≠ '.')).drop 1) : ℚ) /
    10 ^ ((s.data.dropWhile (fun c => c ≠ '.')).drop 1).length

/-- The call `to_string(x, rt, precision, show_sign, lim_inf, lim_sup)` stays in the
power-of-ten table: every exponent it passes to `long_double_pow10` or `long_pow10`
(`pow10_lookups`) lies in the table's domain `[0, MAX_TABLE_EXP]` of spec 4.1. -/
def lookups_in_table (x : LongDouble) (precision : Nat) (lim_inf lim_sup : Int) : Prop :=
  ∀ n ∈ pow10_lookups x precision lim_inf lim_sup, n ≤ MAX_TABLE_EXP

instance lookups_in_table_decidable (x : LongDouble) (precision : Nat) (lim_inf lim_sup : Int) :
    Decidable (lookups_in_table x precision lim_inf lim_sup) := by
  unfold lookups_in_table; infer_instance

/-- Modelled from the spec: the table behind `long_double_pow10` and `long_pow10`
(FormatNumber.cpp) is missing, and spec 4.1 gives it the domain `[0, MAX_TABLE_EXP]`,
a lookup outside being a caller error with no defined output ("undefined/fails fast").
This is `als::utilities::to_string(long double, ...)` over that table: `none` when the call
looks up an exponent outside the domain, and what lines 34-131 compute (`to_string`) when
the call stays in the table. -/
def to_string_checked (x : LongDouble) (rt : RepresentationType) (precision : Nat)
    (show_sign : Bool) (lim_inf lim_sup : Int) : Option String :=
  if lookups_in_table x precision lim_inf lim_sup then
    to_string x rt precision show_sign lim_inf lim_sup
  else
    none

/-! ## Auxiliary lemmas -/

theorem exponent_of_eq (q : ℚ) (p : Nat) (e : Int)
    (h1 : (10 : ℚ) ^ e ≤ log10_arg q p) (h2 : log10_arg q p < (10 : ℚ) ^ (e + 1)) :
    exponent_of q p = e := by
  unfold exponent_of
  have hpos : 0 < log10_arg q p := lt_of_lt_of_le (by positivity) h1
  apply le_antisymm
  · have := (Int.lt_zpow_iff_log_lt (b := 10) (by norm_num) hpos (x := e + 1)).1 h2
    omega
  · exact (Int.zpow_le_iff_le_log (b := 10) (by norm_num) hpos).1 h1

theorem std_round_toNat_eq (r : ℚ) (b : Nat) (h0 : 0 ≤ r) (h1 : (b : ℚ) ≤ r + 1 / 2)
    (h2 : r + 1 / 2 < b + 1) : (std_round r).toNat = b := by
  unfold std_round
  rw [if_pos h0]
  have : ⌊r + 1 / 2⌋ = (b : Int) := by
    rw [Int.floor_eq_iff]
    exact ⟨by exact_mod_cast h1, by exact_mod_cast h2⟩
  rw [this]; simp

theorem to_string_finite (q : ℚ) (rt : RepresentationType) (p : Nat) (ss : Bool) (li ls : Int)
    (hp : p ≠ 0) :
    to_string (LongDouble.finite q) rt p ss li ls =
      render rt p (sign_of q ss) (scientific q p li ls) (exponent_of q p)
        (base_of q p (exponent_of q p)) := by
  simp [to_string, hp]

theorem to_string_eval (q : ℚ) (rt : RepresentationType) (p : Nat) (ss : Bool) (li ls : Int)
    (e : Int) (b : Nat) (sci : Bool) (sg : String) (hp : p ≠ 0)
    (he : exponent_of q p = e) (hb : base_of q p e = b)
    (hs : scientific q p li ls = sci) (hg : sign_of q ss = sg) :
    to_string (LongDouble.finite q) rt p ss li ls = render rt p sg sci e b := by
  rw [to_string_finite q rt p ss li ls hp, he, hb, hs, hg]

theorem toDigitsCore_length_ge (f : Nat) : ∀ (n k : Nat) (ds : List Char), n < f → 10 ^ k ≤ n →
    ds.length + k + 1 ≤ (Nat.toDigitsCore 10 f n ds).length := by
  induction f with
  | zero => intro n k ds hn; omega
  | succ f ih =>
    intro n k ds hn hk
    simp only [Nat.toDigitsCore]
    split
    · rename_i h0
      have hlt : n < 10 := by omega
      have hk0 : k = 0 := by
        rcases Nat.eq_zero_or_pos k with h | h
        · exact h
        · have : 10 ^ 1 ≤ 10 ^ k := Nat.pow_le_pow_right (by norm_num) h
          omega
      subst hk0
      simp
    · rename_i h0
      cases k with
      | zero =>
        have := ih (n / 10) 0 (Nat.digitChar (n % 10) :: ds) (by omega) (by simp; omega)
        simp only [List.length_cons] at this
        omega
      | succ k =>
        have hk2 : 10 ^ k ≤ n / 10 := by
          rw [Nat.le_div_iff_mul_le (by norm_num)]
          rw [pow_succ] at hk
          exact hk
        have := ih (n / 10) k (Nat.digitChar (n % 10) :: ds) (by omega) hk2
        simp only [List.length_cons] at this
        omega

theorem toString_nat_length_ge (n k : Nat) (h : 10 ^ k ≤ n) : k + 1 ≤ (toString n).length := by
  have := toDigitsCore_length_ge (n + 1) n k [] (by omega) h
  simpa [toString, Nat.repr, Nat.toDigits, String.length, List.asString] using this

theorem toString_nat_length_pos (n : Nat) : 1 ≤ (toString n).length := by
  rcases Nat.eq_zero_or_pos n with h | h
  · subst h; decide
  · exact toString_nat_length_ge n 0 (by simpa using h)

theorem contains_of_eq (s a t b : String) (h : s = a ++ t ++ b) : contains s t := by
  subst h
  unfold contains
  simp only [String.data_append]
  exact List.infix_append _ _ _

theorem render_sci_contains (rt : RepresentationType) (p : Nat) (sign : String) (e : Int)
    (b : Nat) : ∃ s, render rt p sign true e b = some s ∧ contains s "10^" := by
  unfold render
  simp only [if_true]
  split
  · refine ⟨_, rfl, ?_⟩
    cases rt
    · apply contains_of_eq _ sign "10^" ("(" ++ toString e ++ ")")
      rw [show "10^(" = "10^" ++ "(" by decide]
      simp only [String.append_assoc, reduceIte, reduceCtorEq]
    · apply contains_of_eq _ sign "10^" ("\x7b" ++ toString e ++ "\x7d")
      rw [show "10^\x7b" = "10^" ++ "\x7b" by decide]
      simp only [String.append_assoc, reduceIte]
  · have hlen := toString_nat_length_pos b
    simp only [string_insert, if_pos hlen, Option.map_some']
    refine ⟨_, rfl, ?_⟩
    cases rt
    · apply contains_of_eq _ (sign ++ ⟨(toString b).data.take 1 ++ ".".data ++
        (toString b).data.drop 1⟩ ++ "*") "10^" ("(" ++ toString e ++ ")")
      rw [show "*10^(" = "*" ++ "10^" ++ "(" by decide]
      simp only [String.append_assoc, reduceIte, reduceCtorEq]
    · apply contains_of_eq _ (sign ++ ⟨(toString b).data.take 1 ++ ".".data ++
        (toString b).data.drop 1⟩ ++ "\\cdot ") "10^" ("\x7b" ++ toString e ++ "\x7d")
      rw [show "\\cdot 10^\x7b" = "\\cdot " ++ "10^" ++ "\x7b" by decide]
      simp only [String.append_assoc, reduceIte]

theorem log10_arg_of_ne (q : ℚ) (p : Nat) (hq : q ≠ 0) :
    log10_arg q p = |q| * (1 + 1 / 10 ^ (p + 1)) := by
  simp [log10_arg, hq, long_double_pow10]

theorem log10_arg_pos (q : ℚ) (p : Nat) : 0 < log10_arg q p := by
  by_cases hq : q = 0
  · simp [log10_arg, hq]
  · rw [log10_arg_of_ne q p hq]
    have : 0 < |q| := abs_pos.mpr hq
    positivity

theorem le_log10_arg (q : ℚ) (p : Nat) (hq : q ≠ 0) : |q| ≤ log10_arg q p := by
  rw [log10_arg_of_ne q p hq]
  have h1 : 0 ≤ |q| := abs_nonneg q
  have h2 : (0 : ℚ) ≤ 1 / 10 ^ (p + 1) := by positivity
  nlinarith

theorem nudge_round_ge (B r ε : ℚ) (hε : 0 ≤ ε) (hB : B * ε ≤ 1 / 2)
    (h : B ≤ r * (1 + ε)) : B ≤ r + 1 / 2 := by
  by_contra hlt
  push_neg at hlt
  have h1 : r * ε ≤ B * ε := by
    apply mul_le_mul_of_nonneg_right _ hε
    linarith
  linarith

theorem std_round_toNat_ge (r : ℚ) (B : Nat) (hr : 0 ≤ r) (h : (B : ℚ) ≤ r + 1 / 2) :
    B ≤ (std_round r).toNat := by
  unfold std_round
  rw [if_pos hr]
  have h1 : (B : Int) ≤ ⌊r + 1 / 2⌋ := Int.le_floor.mpr (by exact_mod_cast h)
  omega

theorem base_of_ge (q : ℚ) (p : Nat) (hq : q ≠ 0) (hp : 1 ≤ p) :
    10 ^ (p - 1) ≤ base_of q p (exponent_of q p) := by
  have ha : (10 : ℚ) ^ exponent_of q p ≤ log10_arg q p :=
    Int.zpow_log_le_self (by norm_num) (log10_arg_pos q p)
  rw [log10_arg_of_ne q p hq] at ha
  generalize exponent_of q p = e at ha
  have hq0 : 0 ≤ |q| := abs_nonneg q
  have hε : (0 : ℚ) ≤ 1 / 10 ^ (p + 1) := by positivity
  have hBε : ((10 ^ (p - 1) : Nat) : ℚ) * (1 / 10 ^ (p + 1)) ≤ 1 / 2 := by
    have : p + 1 = (p - 1) + 2 := by omega
    rw [this, pow_add]
    push_cast
    have h10 : (0 : ℚ) < 10 ^ (p - 1) := by positivity
    field_simp
    rw [div_le_div_iff₀ (by positivity) (by positivity)]
    nlinarith
  unfold base_of
  split
  · rename_i hbr
    have hk : e = (((e - p + 1).toNat + (p - 1) : Nat) : Int) := by omega
    apply std_round_toNat_ge _ _ (by unfold long_double_pow10; positivity)
    apply nudge_round_ge _ _ _ hε hBε
    rw [hk, zpow_natCast, pow_add] at ha
    unfold long_double_pow10
    have h10 : (0 : ℚ) < 10 ^ (e - p + 1).toNat := by positivity
    rw [div_mul_eq_mul_div, le_div_iff₀ h10]
    push_cast
    linarith
  · rename_i hbr
    have hk : e = ((p - 1 : Nat) : Int) - (((p : Int) - e - 1).toNat : Int) := by omega
    apply std_round_toNat_ge _ _ (by unfold long_double_pow10; positivity)
    apply nudge_round_ge _ _ _ hε hBε
    rw [hk, zpow_sub₀ (by norm_num), zpow_natCast, zpow_natCast] at ha
    unfold long_double_pow10
    have h10 : (0 : ℚ) < 10 ^ ((p : Int) - e - 1).toNat := by positivity
    rw [div_le_iff₀ h10] at ha
    push_cast
    linarith

theorem base_of_zero (p : Nat) (e : Int) : base_of 0 p e = 0 := by
  unfold base_of std_round
  split <;> norm_num

theorem render_sign (rt : RepresentationType) (p : Nat) (sign : String) (sci : Bool) (e : Int)
    (b : Nat) (hb : sci = false → b ≠ 0) :
    render rt p sign sci e b = (render rt p "" sci e b).map (fun s => sign ++ s) := by
  unfold render
  cases sci with
  | true =>
    simp only [if_true]
    split
    · simp
    · simp only [Option.map_map]
      congr 1
      funext m
      simp [String.append_assoc]
  | false =>
    have hb0 : b ≠ 0 := hb rfl
    simp only [Bool.false_eq_true, if_false, hb0]
    split
    · split
      · simp
      · simp only [Option.map_map]
        congr 1
    · simp [String.append_assoc]

theorem render_total (rt : RepresentationType) (p : Nat) (sign : String) (sci : Bool) (e : Int)
    (b : Nat) (hb : b = 0 ∨ 10 ^ (p - 1) ≤ b) : ∃ s, render rt p sign sci e b = some s := by
  unfold render
  have hlen := toString_nat_length_pos b
  cases sci with
  | true =>
    simp only [if_true]
    split
    · exact ⟨_, rfl⟩
    · simp only [string_insert, if_pos hlen, Option.map_some']
      exact ⟨_, rfl⟩
  | false =>
    simp only [Bool.false_eq_true, if_false]
    split
    · exact ⟨_, rfl⟩
    · rename_i hb0
      have hge : 10 ^ (p - 1) ≤ b := by
        rcases hb with h | h
        · exact absurd h hb0
        · exact h
      have hl := toString_nat_length_ge b (p - 1) hge
      split
      · split
        · exact ⟨_, rfl⟩
        · rename_i he0 hep
          have hpos : (e + 1).toNat ≤ (toString b).length := by omega
          simp only [string_insert, if_pos hpos, Option.map_some']
          exact ⟨_, rfl⟩
      · exact ⟨_, rfl⟩

theorem to_string_total (q : ℚ) (rt : RepresentationType) (p : Nat) (ss : Bool) (li ls : Int)
    (hp : 1 ≤ p) : ∃ s, to_string (LongDouble.finite q) rt p ss li ls = some s := by
  rw [to_string_finite q rt p ss li ls (by omega)]
  apply render_total
  by_cases hq : q = 0
  · left; rw [hq]; exact base_of_zero _ _
  · right; exact base_of_ge q p hq hp
/-! ## The claims -/

/-- Claim C1 (fails on the code): the double 9.9970703125 = 10237/1024 at precision 3.
The nudged logarithm stays below 1, so `exponent` is 0, but rounding to 3 significant
digits carries: `base` is 1000 = 10^3, a 4-digit mantissa, and the output is `"1.000"`. -/
theorem C1_mantissa_carry_overflows :
    exponent_of (10237 / 1024) 3 = 0 ∧
    base_of (10237 / 1024) 3 (exponent_of (10237 / 1024) 3) = 10 ^ 3 ∧
    to_string (LongDouble.finite (10237 / 1024)) RepresentationType.PLAIN 3 false (-3) 3
      = some "1.000" := by
  have he : exponent_of (10237 / 1024) 3 = 0 := by
    apply exponent_of_eq <;> simp [log10_arg, long_double_pow10, abs_div] <;> norm_num
  have hb : base_of (10237 / 1024) 3 0 = 1000 := by
    simp [base_of, long_double_pow10]
    apply std_round_toNat_eq <;> norm_num [abs_div]
  have hs : scientific (10237 / 1024) 3 (-3) 3 = false := by
    simp [scientific, log10_arg, long_double_pow10, abs_div]
    norm_num
  have hg : sign_of (10237 / 1024) false = "" := by norm_num [sign_of]
  refine ⟨he, by rw [he, hb]; norm_num, ?_⟩
  rw [to_string_eval _ _ _ _ _ _ 0 1000 false "" (by decide) he hb hs hg]
  decide

/-- Claim C2 (as amended): for the `double` nearest to 9.995, which is
5626684784446013 / 2^49 and lies just below 9.995, the formatter at precision 3 with
thresholds -3 and 3 returns `"9.99"`: the mantissa rounds down to 999. -/
theorem C2_amended_nearest_double :
    to_string (LongDouble.finite (5626684784446013 / 562949953421312))
      RepresentationType.PLAIN 3 false (-3) 3 = some "9.99" := by
  have he : exponent_of (5626684784446013 / 562949953421312) 3 = 0 := by
    apply exponent_of_eq <;> simp [log10_arg, long_double_pow10, abs_div] <;> norm_num
  have hb : base_of (5626684784446013 / 562949953421312) 3 0 = 999 := by
    simp [base_of, long_double_pow10]
    apply std_round_toNat_eq <;> norm_num [abs_div]
  have hs : scientific (5626684784446013 / 562949953421312) 3 (-3) 3 = false := by
    simp [scientific, log10_arg, long_double_pow10, abs_div]
    norm_num
  have hg : sign_of (5626684784446013 / 562949953421312) false = "" := by norm_num [sign_of]
  rw [to_string_eval _ _ _ _ _ _ 0 999 false "" (by decide) he hb hs hg]
  decide

/-- Claim C2 (as stated, refuted): neither the `double` nearest to 9.995 nor the exact
decimal 9.995 = 1999/200 is rendered as `"10.0"`; the exact decimal gives `"1.000"`. -/
theorem C2_counterexample :
    to_string (LongDouble.finite (5626684784446013 / 562949953421312))
      RepresentationType.PLAIN 3 false (-3) 3 ≠ some "10.0" ∧
    to_string (LongDouble.finite (1999 / 200)) RepresentationType.PLAIN 3 false (-3) 3
      = some "1.000" := by
  constructor
  · have he : exponent_of (5626684784446013 / 562949953421312) 3 = 0 := by
      apply exponent_of_eq <;> simp [log10_arg, long_double_pow10, abs_div] <;> norm_num
    have hb : base_of (5626684784446013 / 562949953421312) 3 0 = 999 := by
      simp [base_of, long_double_pow10]
      apply std_round_toNat_eq <;> norm_num [abs_div]
    have hs : scientific (5626684784446013 / 562949953421312) 3 (-3) 3 = false := by
      simp [scientific, log10_arg, long_double_pow10, abs_div]
      norm_num
    have hg : sign_of (5626684784446013 / 562949953421312) false = "" := by
      norm_num [sign_of]
    rw [to_string_eval _ _ _ _ _ _ 0 999 false "" (by decide) he hb hs hg]
    decide
  · have he : exponent_of (1999 / 200) 3 = 0 := by
      apply exponent_of_eq <;> simp [log10_arg, long_double_pow10, abs_div] <;> norm_num
    have hb : base_of (1999 / 200) 3 0 = 1000 := by
      simp [base_of, long_double_pow10]
      apply std_round_toNat_eq <;> norm_num [abs_div]
    have hs : scientific (1999 / 200) 3 (-3) 3 = false := by
      simp [scientific, log10_arg, long_double_pow10, abs_div]
      norm_num
    have hg : sign_of (1999 / 200) false = "" := by norm_num [sign_of]
    rw [to_string_eval _ _ _ _ _ _ 0 1000 false "" (by decide) he hb hs hg]
    decide

/-- Claim C3 (as stated, refuted): at precision 19 and value 1 the formatter looks up
`long_double_pow10 (20)` on line 58, and at precision 3 and value 2^100 (about 1.27e30) it
looks up `long_double_pow10 (28)` on line 73; both lie outside the table's domain [0, 19]. -/
theorem C3_counterexample :
    20 ∈ pow10_lookups (LongDouble.finite 1) 19 (-3) 3 ∧
    28 ∈ pow10_lookups (LongDouble.finite (2 ^ 100)) 3 (-3) 3 ∧
    ¬ (∀ n ∈ pow10_lookups (LongDouble.finite 1) 19 (-3) 3, n ≤ MAX_TABLE_EXP) := by
  have h20 : 20 ∈ pow10_lookups (LongDouble.finite 1) 19 (-3) 3 := by
    simp [pow10_lookups]
  have he : exponent_of (2 ^ 100) 3 = 30 := by
    apply exponent_of_eq <;> simp [log10_arg, long_double_pow10] <;> norm_num
  refine ⟨h20, ?_, fun h => ?_⟩
  · simp [pow10_lookups, he]
  · have := h 20 h20
    simp [MAX_TABLE_EXP] at this

/-- Claim C3 (as amended): for every value, every precision `1 ≤ p ≤ 18` and all
thresholds, if for a finite value the computed exponent lies in `[p - 20, p + 18]`, then
every exponent passed to `long_double_pow10` or `long_pow10` lies in the table's domain
`[0, 19]`. -/
theorem C3_amended_lookups_in_table (x : LongDouble) (precision : Nat) (lim_inf lim_sup : Int)
    (hp : 1 ≤ precision) (hp18 : precision ≤ 18)
    (hexp : ∀ q, x = LongDouble.finite q →
      (precision : Int) - 20 ≤ exponent_of q precision ∧
      exponent_of q precision ≤ (precision : Int) + 18) :
    ∀ n ∈ pow10_lookups x precision lim_inf lim_sup, n ≤ MAX_TABLE_EXP := by
  intro n hn
  have hp0 : precision ≠ 0 := by omega
  cases x with
  | inf negative => simp [pow10_lookups, hp0] at hn
  | nan => simp [pow10_lookups, hp0] at hn
  | finite q =>
    obtain ⟨h1, h2⟩ := hexp q rfl
    simp only [pow10_lookups, hp0, if_false, List.mem_append, List.mem_singleton] at hn
    unfold MAX_TABLE_EXP
    rcases hn with (hn | hn) | hn
    · split at hn
      · simp at hn; omega
      · simp at hn
    · split at hn <;> omega
    · split at hn
      · simp at hn; omega
      · split at hn
        · simp at hn; omega
        · simp at hn

theorem C3_amended_lookups_in_table_witness :
    4 ∈ pow10_lookups (LongDouble.finite 1) 3 (-3) 3 ∧ 4 ≤ MAX_TABLE_EXP := by
  have he : exponent_of 1 3 = 0 := by
    apply exponent_of_eq <;> norm_num [log10_arg, long_double_pow10]
  have h4 : 4 ∈ pow10_lookups (LongDouble.finite 1) 3 (-3) 3 := by
    simp [pow10_lookups]
  exact ⟨h4, C3_amended_lookups_in_table (LongDouble.finite 1) 3 (-3) 3 (by decide) (by decide)
    (fun q hq => by
      have hq1 : q = 1 := by injection hq with h; exact h.symm
      subst hq1
      rw [he]; constructor <;> norm_num) 4 h4⟩

/-- Claim C4: with `precision = 0` the formatter returns `"0"` for every value (finite,
zero, negative, infinite or NaN), every mode, `show_sign` and thresholds; the check comes
before the special-value checks. -/
theorem C4_precision_zero (x : LongDouble) (rt : RepresentationType) (show_sign : Bool)
    (lim_inf lim_sup : Int) : to_string x rt 0 show_sign lim_inf lim_sup = some "0" := by
  simp [to_string]

/-- Claim C5: for every precision at least 1, both infinities give `"inf"` (PLAIN) and
`"\infty"` (LATEX), NaN gives `"NaN"` (PLAIN) and `"\mathrm{NaN}"` (LATEX), whatever
`show_sign` and the thresholds are: no sign is prepended. -/
theorem C5_special_values (precision : Nat) (show_sign : Bool) (lim_inf lim_sup : Int)
    (hp : 1 ≤ precision) :
    (∀ negative : Bool,
      to_string (LongDouble.inf negative) RepresentationType.PLAIN precision show_sign
          lim_inf lim_sup = some "inf" ∧
      to_string (LongDouble.inf negative) RepresentationType.LATEX precision show_sign
          lim_inf lim_sup = some "\\infty") ∧
    to_string LongDouble.nan RepresentationType.PLAIN precision show_sign lim_inf lim_sup
      = some "NaN" ∧
    to_string LongDouble.nan RepresentationType.LATEX precision show_sign lim_inf lim_sup
      = some "\\mathrm\x7bNaN\x7d" := by
  have h : precision ≠ 0 := by omega
  simp [to_string, h]

theorem C5_special_values_witness :
    to_string (LongDouble.inf true) RepresentationType.PLAIN 3 true (-3) 3 = some "inf" ∧
    to_string LongDouble.nan RepresentationType.LATEX 3 true (-3) 3
      = some "\\mathrm\x7bNaN\x7d" :=
  ⟨((C5_special_values 3 true (-3) 3 (by decide)).1 true).1,
   (C5_special_values 3 true (-3) 3 (by decide)).2.2⟩

/-- Claim C8: when scientific notation is selected and the rounded mantissa `base` equals
`10^(precision-1)`, the output is `sign ++ "10^(" ++ exponent ++ ")"` in PLAIN mode and
`sign ++ "10^{" ++ exponent ++ "}"` in LATEX mode, with no mantissa and no multiplication
glyph; in particular 1000 at precision 3 with thresholds -3 and 2 gives `"10^(3)"`. -/
theorem C8_scientific_power_of_ten :
    (∀ (q : ℚ) (precision : Nat) (show_sign : Bool) (lim_inf lim_sup : Int),
        1 ≤ precision → scientific q precision lim_inf lim_sup = true →
        base_of q precision (exponent_of q precision) = 10 ^ (precision - 1) →
        to_string (LongDouble.finite q) RepresentationType.PLAIN precision show_sign
            lim_inf lim_sup
          = some (sign_of q show_sign ++ ("10^(" ++ toString (exponent_of q precision) ++ ")")) ∧
        to_string (LongDouble.finite q) RepresentationType.LATEX precision show_sign
            lim_inf lim_sup
          = some (sign_of q show_sign ++
              ("10^\x7b" ++ toString (exponent_of q precision) ++ "\x7d"))) ∧
    to_string (LongDouble.finite 1000) RepresentationType.PLAIN 3 false (-3) 2
      = some "10^(3)" := by
  have hgen : ∀ (q : ℚ) (precision : Nat) (show_sign : Bool) (lim_inf lim_sup : Int),
      1 ≤ precision → scientific q precision lim_inf lim_sup = true →
      base_of q precision (exponent_of q precision) = 10 ^ (precision - 1) →
      to_string (LongDouble.finite q) RepresentationType.PLAIN precision show_sign
          lim_inf lim_sup
        = some (sign_of q show_sign ++ ("10^(" ++ toString (exponent_of q precision) ++ ")")) ∧
      to_string (LongDouble.finite q) RepresentationType.LATEX precision show_sign
          lim_inf lim_sup
        = some (sign_of q show_sign ++
            ("10^\x7b" ++ toString (exponent_of q precision) ++ "\x7d")) := by
    intro q p ss li ls hp hs hb
    rw [to_string_finite q _ p ss li ls (by omega), to_string_finite q _ p ss li ls (by omega),
      hs, hb]
    constructor <;> simp [render, long_pow10]
  refine ⟨hgen, ?_⟩
  have he : exponent_of 1000 3 = 3 := by
    apply exponent_of_eq <;> simp [log10_arg, long_double_pow10] <;> norm_num
  have hb : base_of 1000 3 3 = 100 := by
    simp [base_of, long_double_pow10]
    apply std_round_toNat_eq <;> norm_num
  have hs : scientific 1000 3 (-3) 2 = true := by
    simp [scientific, log10_arg, long_double_pow10]
    norm_num
  have hg : sign_of 1000 false = "" := by norm_num [sign_of]
  have := (hgen 1000 3 false (-3) 2 (by decide) hs (by rw [he, hb]; norm_num)).1
  rw [this, he, hg]
  decide

theorem C8_scientific_power_of_ten_witness :
    (scientific (-1000) 3 (-3) 2 = true ∧
      base_of (-1000) 3 (exponent_of (-1000) 3) = 10 ^ (3 - 1)) ∧
    to_string (LongDouble.finite (-1000)) RepresentationType.LATEX 3 false (-3) 2
      = some "-10^\x7b3\x7d" := by
  have he : exponent_of (-1000) 3 = 3 := by
    apply exponent_of_eq <;> simp [log10_arg, long_double_pow10] <;> norm_num
  have hb : base_of (-1000) 3 (exponent_of (-1000) 3) = 10 ^ (3 - 1) := by
    rw [he]
    simp [base_of, long_double_pow10]
    apply std_round_toNat_eq <;> norm_num
  have hs : scientific (-1000) 3 (-3) 2 = true := by
    simp [scientific, log10_arg, long_double_pow10]
    norm_num
  have hg : sign_of (-1000) false = "-" := by norm_num [sign_of]
  refine ⟨⟨hs, hb⟩, ?_⟩
  rw [(C8_scientific_power_of_ten.1 (-1000) 3 false (-3) 2 (by decide) hs hb).2, he, hg]
  decide

/-- Claim C9: when scientific notation is selected and the rounded mantissa `base` is a
`precision`-digit number `d1 d2 ... dp` other than `10^(precision-1)`, the PLAIN output is
`sign ++ d1 ++ "." ++ d2...dp ++ "*10^(" ++ exponent ++ ")"` and the LATEX output is the
same with `"\cdot 10^{" ... "}"`; in particular 3140 at precision 3 with `lim_sup = 3`
gives `"3.14*10^(3)"`. -/
theorem C9_scientific_mantissa :
    (∀ (q : ℚ) (precision : Nat) (show_sign : Bool) (lim_inf lim_sup : Int),
        1 ≤ precision → scientific q precision lim_inf lim_sup = true →
        10 ^ (precision - 1) ≤ base_of q precision (exponent_of q precision) →
        base_of q precision (exponent_of q precision) < 10 ^ precision →
        base_of q precision (exponent_of q precision) ≠ 10 ^ (precision - 1) →
        ∃ (d1 : Char) (ds : List Char),
          (toString (base_of q precision (exponent_of q precision))).data = d1 :: ds ∧
          ds.length = precision - 1 ∧
          to_string (LongDouble.finite q) RepresentationType.PLAIN precision show_sign
              lim_inf lim_sup
            = some (sign_of q show_sign ++ String.mk [d1] ++ "." ++ String.mk ds ++
                "*10^(" ++ toString (exponent_of q precision) ++ ")") ∧
          to_string (LongDouble.finite q) RepresentationType.LATEX precision show_sign
              lim_inf lim_sup
            = some (sign_of q show_sign ++ String.mk [d1] ++ "." ++ String.mk ds ++
                "\\cdot 10^\x7b" ++ toString (exponent_of q precision) ++ "\x7d")) ∧
    to_string (LongDouble.finite 3140) RepresentationType.PLAIN 3 false (-3) 3
      = some "3.14*10^(3)" := by
  have hgen : ∀ (q : ℚ) (precision : Nat) (show_sign : Bool) (lim_inf lim_sup : Int),
      1 ≤ precision → scientific q precision lim_inf lim_sup = true →
      10 ^ (precision - 1) ≤ base_of q precision (exponent_of q precision) →
      base_of q precision (exponent_of q precision) < 10 ^ precision →
      base_of q precision (exponent_of q precision) ≠ 10 ^ (precision - 1) →
      ∃ (d1 : Char) (ds : List Char),
        (toString (base_of q precision (exponent_of q precision))).data = d1 :: ds ∧
        ds.length = precision - 1 ∧
        to_string (LongDouble.finite q) RepresentationType.PLAIN precision show_sign
            lim_inf lim_sup
          = some (sign_of q show_sign ++ String.mk [d1] ++ "." ++ String.mk ds ++
              "*10^(" ++ toString (exponent_of q precision) ++ ")") ∧
        to_string (LongDouble.finite q) RepresentationType.LATEX precision show_sign
            lim_inf lim_sup
          = some (sign_of q show_sign ++ String.mk [d1] ++ "." ++ String.mk ds ++
              "\\cdot 10^\x7b" ++ toString (exponent_of q precision) ++ "\x7d") := by
    intro q p ss li ls hp hs hlo hhi hne
    rw [to_string_finite q _ p ss li ls (by omega), to_string_finite q _ p ss li ls (by omega),
      hs]
    generalize base_of q p (exponent_of q p) = b at hlo hhi hne ⊢
    have hb1 : p ≤ (toString b).length := by
      have := toString_nat_length_ge b (p - 1) hlo
      omega
    have hb2 : (toString b).length ≤ p := Nat.repr_length b p (by omega) hhi
    have hlen : (toString b).data.length = p := by
      have : (toString b).length = (toString b).data.length := rfl
      omega
    obtain ⟨d1, ds, hd⟩ : ∃ d1 ds, (toString b).data = d1 :: ds := by
      cases hdat : (toString b).data with
      | nil => rw [hdat] at hlen; simp at hlen; omega
      | cons d1 ds => exact ⟨d1, ds, rfl⟩
    have hins : string_insert (toString b) 1 "." = some (String.mk [d1] ++ "." ++ String.mk ds) := by
      have h1 : 1 ≤ (toString b).length := by omega
      simp only [string_insert, if_pos h1, hd]
      congr 1
    have hne2 : ¬ b = long_pow10 (p - 1) := hne
    refine ⟨d1, ds, hd, ?_, ?_, ?_⟩
    · rw [hd] at hlen
      simp at hlen
      omega
    · simp only [render, if_true, if_neg hne2, hins, Option.map_some']
      simp [String.append_assoc]
    · simp only [render, if_true, if_neg hne2, hins, Option.map_some']
      simp [String.append_assoc]
  refine ⟨hgen, ?_⟩
  have he : exponent_of 3140 3 = 3 := by
    apply exponent_of_eq <;> simp [log10_arg, long_double_pow10] <;> norm_num
  have hb : base_of 3140 3 3 = 314 := by
    simp [base_of, long_double_pow10]
    apply std_round_toNat_eq <;> norm_num
  have hs : scientific 3140 3 (-3) 3 = true := by
    simp [scientific, log10_arg, long_double_pow10]
    norm_num
  have hg : sign_of 3140 false = "" := by norm_num [sign_of]
  rw [to_string_eval _ _ _ _ _ _ 3 314 true "" (by decide) he hb hs hg]
  decide

theorem C9_scientific_mantissa_witness :
    (scientific 3140 3 (-3) 3 = true ∧
      10 ^ (3 - 1) ≤ base_of 3140 3 (exponent_of 3140 3) ∧
      base_of 3140 3 (exponent_of 3140 3) < 10 ^ 3 ∧
      base_of 3140 3 (exponent_of 3140 3) ≠ 10 ^ (3 - 1)) ∧
    ∃ (d1 : Char) (ds : List Char),
      (toString (base_of 3140 3 (exponent_of 3140 3))).data = d1 :: ds ∧
      ds.length = 3 - 1 ∧
      to_string (LongDouble.finite 3140) RepresentationType.PLAIN 3 true (-3) 3
        = some (sign_of 3140 true ++ String.mk [d1] ++ "." ++ String.mk ds ++
            "*10^(" ++ toString (exponent_of 3140 3) ++ ")") ∧
      to_string (LongDouble.finite 3140) RepresentationType.LATEX 3 true (-3) 3
        = some (sign_of 3140 true ++ String.mk [d1] ++ "." ++ String.mk ds ++
            "\\cdot 10^\x7b" ++ toString (exponent_of 3140 3) ++ "\x7d") := by
  have he : exponent_of 3140 3 = 3 := by
    apply exponent_of_eq <;> simp [log10_arg, long_double_pow10] <;> norm_num
  have hb : base_of 3140 3 (exponent_of 3140 3) = 314 := by
    rw [he]
    simp [base_of, long_double_pow10]
    apply std_round_toNat_eq <;> norm_num
  have hs : scientific 3140 3 (-3) 3 = true := by
    simp [scientific, log10_arg, long_double_pow10]
    norm_num
  have h1 : 10 ^ (3 - 1) ≤ base_of 3140 3 (exponent_of 3140 3) := by rw [hb]; norm_num
  have h2 : base_of 3140 3 (exponent_of 3140 3) < 10 ^ 3 := by rw [hb]; norm_num
  have h3 : base_of 3140 3 (exponent_of 3140 3) ≠ 10 ^ (3 - 1) := by rw [hb]; norm_num
  exact ⟨⟨hs, h1, h2, h3⟩, C9_scientific_mantissa.1 3140 3 true (-3) 3 (by decide) hs h1 h2 h3⟩

theorem log10_arg_neg (q : ℚ) (p : Nat) : log10_arg (-q) p = log10_arg q p := by
  simp [log10_arg]

theorem exponent_of_neg (q : ℚ) (p : Nat) : exponent_of (-q) p = exponent_of q p := by
  simp [exponent_of, log10_arg_neg]

theorem base_of_neg (q : ℚ) (p : Nat) (e : Int) : base_of (-q) p e = base_of q p e := by
  simp [base_of]

theorem scientific_neg (q : ℚ) (p : Nat) (li ls : Int) :
    scientific (-q) p li ls = scientific q p li ls := by
  simp [scientific, log10_arg_neg]

theorem base_of_ne_zero (q : ℚ) (p : Nat) (hq : q ≠ 0) (hp : 1 ≤ p) :
    base_of q p (exponent_of q p) ≠ 0 := by
  have hb := base_of_ge q p hq hp
  have : 0 < 10 ^ (p - 1) := by positivity
  omega

theorem exponent_of_zero (p : Nat) : exponent_of 0 p = 0 := by
  simp [exponent_of, log10_arg]

theorem sign_of_zero (ss : Bool) : sign_of 0 ss = "" := by
  simp [sign_of]

theorem not_begins_with_of_zero_dot (rest t : String) (ht : t = "+" ∨ t = "-") :
    ¬ begins_with ("0." ++ rest) t := by
  unfold begins_with
  rcases ht with h | h <;> subst h <;>
    · simp only [String.data_append]
      intro hpre
      obtain ⟨u, hu⟩ := hpre
      simp at hu

theorem render_zero (rt : RepresentationType) (p : Nat) (sci : Bool) (e : Int) :
    ∃ rest, render rt p "" sci e 0 = some ("0." ++ rest) := by
  unfold render
  have hne : ¬ (0 = long_pow10 (p - 1)) := by
    unfold long_pow10
    have : 0 < 10 ^ (p - 1) := by positivity
    omega
  cases sci with
  | true =>
    simp only [if_true, if_neg hne]
    rw [show string_insert (toString 0) 1 "." = some "0." by decide]
    simp only [Option.map_some']
    exact ⟨_, by rw [String.append_assoc, String.append_assoc]; rfl⟩
  | false =>
    simp only [Bool.false_eq_true, if_false, if_true]
    exact ⟨_, rfl⟩

/-- Claim C12: for the value zero, every mode, precision at least 1, thresholds and both
values of `show_sign`, the output exists and begins with neither `"+"` nor `"-"`; in
particular zero at precision 2 with `show_sign = true` gives `"0.0"`. -/
theorem C12_zero_is_never_signed :
    (∀ (rt : RepresentationType) (precision : Nat) (show_sign : Bool) (lim_inf lim_sup : Int),
        1 ≤ precision →
        ∃ s, to_string (LongDouble.finite 0) rt precision show_sign lim_inf lim_sup = some s ∧
          ¬ begins_with s "+" ∧ ¬ begins_with s "-") ∧
    to_string (LongDouble.finite 0) RepresentationType.PLAIN 2 true (-3) 3 = some "0.0" ∧
    ¬ begins_with "0.0" "+" := by
  refine ⟨?_, ?_, by decide⟩
  · intro rt p ss li ls hp
    rw [to_string_finite 0 rt p ss li ls (by omega), sign_of_zero, exponent_of_zero,
      base_of_zero]
    obtain ⟨rest, hrest⟩ := render_zero rt p (scientific 0 p li ls) 0
    exact ⟨_, hrest, not_begins_with_of_zero_dot rest "+" (Or.inl rfl),
      not_begins_with_of_zero_dot rest "-" (Or.inr rfl)⟩
  · have hs : scientific 0 2 (-3) 3 = false := by
      simp [scientific, log10_arg]
      norm_num
    rw [to_string_eval 0 _ 2 true (-3) 3 0 0 false "" (by decide) (exponent_of_zero 2)
      (base_of_zero 2 0) hs (sign_of_zero true)]
    decide

theorem C12_zero_is_never_signed_witness :
    ∃ s, to_string (LongDouble.finite 0) RepresentationType.LATEX 3 true 0 3 = some s ∧
      ¬ begins_with s "+" ∧ ¬ begins_with s "-" :=
  C12_zero_is_never_signed.1 RepresentationType.LATEX 3 true 0 3 (by decide)

/-- Claim C13: the mode does not alter the numeric content. For every finite value and
precision at least 1: in fixed-point notation the PLAIN and LATEX outputs are the same
string; in scientific notation with `base = 10^(precision-1)` they are
`sign ++ "10^(" ++ exponent ++ ")"` and `sign ++ "10^{" ++ exponent ++ "}"`; otherwise they
are `sign ++ m ++ "*10^(" ++ exponent ++ ")"` and `sign ++ m ++ "\cdot 10^{" ++ exponent ++ "}"`
with the same sign, mantissa text `m` and exponent. -/
theorem C13_mode_keeps_numeric_content (q : ℚ) (precision : Nat) (show_sign : Bool)
    (lim_inf lim_sup : Int) (hp : 1 ≤ precision) :
    (scientific q precision lim_inf lim_sup = false →
      ∃ s, to_string (LongDouble.finite q) RepresentationType.PLAIN precision show_sign
            lim_inf lim_sup = some s ∧
          to_string (LongDouble.finite q) RepresentationType.LATEX precision show_sign
            lim_inf lim_sup = some s) ∧
    (scientific q precision lim_inf lim_sup = true →
      (base_of q precision (exponent_of q precision) = 10 ^ (precision - 1) →
        to_string (LongDouble.finite q) RepresentationType.PLAIN precision show_sign
            lim_inf lim_sup
          = some (sign_of q show_sign ++ ("10^(" ++ toString (exponent_of q precision) ++ ")")) ∧
        to_string (LongDouble.finite q) RepresentationType.LATEX precision show_sign
            lim_inf lim_sup
          = some (sign_of q show_sign ++
              ("10^\x7b" ++ toString (exponent_of q precision) ++ "\x7d"))) ∧
      (base_of q precision (exponent_of q precision) ≠ 10 ^ (precision - 1) →
        ∃ m, to_string (LongDouble.finite q) RepresentationType.PLAIN precision show_sign
              lim_inf lim_sup
            = some (sign_of q show_sign ++ m ++
                ("*10^(" ++ toString (exponent_of q precision) ++ ")")) ∧
          to_string (LongDouble.finite q) RepresentationType.LATEX precision show_sign
              lim_inf lim_sup
            = some (sign_of q show_sign ++ m ++
                ("\\cdot 10^\x7b" ++ toString (exponent_of q precision) ++ "\x7d")))) := by
  have hp0 : precision ≠ 0 := by omega
  refine ⟨fun hs => ?_, fun hs => ⟨fun hb => ?_, fun hb => ?_⟩⟩
  · obtain ⟨s, hs1⟩ := to_string_total q RepresentationType.PLAIN precision show_sign
      lim_inf lim_sup hp
    refine ⟨s, hs1, ?_⟩
    rw [← hs1, to_string_finite q _ precision show_sign lim_inf lim_sup hp0,
      to_string_finite q _ precision show_sign lim_inf lim_sup hp0, hs]
    simp [render]
  · rw [to_string_finite q _ precision show_sign lim_inf lim_sup hp0,
      to_string_finite q _ precision show_sign lim_inf lim_sup hp0, hs, hb]
    constructor <;> simp [render, long_pow10]
  · rw [to_string_finite q _ precision show_sign lim_inf lim_sup hp0,
      to_string_finite q _ precision show_sign lim_inf lim_sup hp0, hs]
    have hne : ¬ base_of q precision (exponent_of q precision) = long_pow10 (precision - 1) := hb
    have hlen := toString_nat_length_pos (base_of q precision (exponent_of q precision))
    simp only [render, if_true, if_neg hne, string_insert, if_pos hlen, Option.map_some']
    exact ⟨_, rfl, rfl⟩

theorem C13_mode_keeps_numeric_content_witness :
    scientific (5 / 4) 3 (-3) 3 = false ∧
    ∃ s, to_string (LongDouble.finite (5 / 4)) RepresentationType.PLAIN 3 false (-3) 3
          = some s ∧
        to_string (LongDouble.finite (5 / 4)) RepresentationType.LATEX 3 false (-3) 3
          = some s := by
  have hs : scientific (5 / 4) 3 (-3) 3 = false := by
    simp [scientific, log10_arg, long_double_pow10, abs_div]
    norm_num
  exact ⟨hs, (C13_mode_keeps_numeric_content (5 / 4) 3 false (-3) 3 (by decide)).1 hs⟩

theorem toDigitsCore_eq_digits (f : Nat) : ∀ (n : Nat) (ds : List Char), 0 < n → n < f →
    Nat.toDigitsCore 10 f n ds = (Nat.digits 10 n).reverse.map Nat.digitChar ++ ds := by
  induction f with
  | zero => intro n ds _ hf; omega
  | succ f ih =>
    intro n ds hn hf
    simp only [Nat.toDigitsCore]
    split
    · rename_i h0
      have hlt : n < 10 := by omega
      rw [Nat.digits_of_lt 10 n (by omega) hlt, Nat.mod_eq_of_lt hlt]
      simp
    · rename_i h0
      rw [ih (n / 10) _ (by omega) (by omega), Nat.digits_def' (by norm_num) hn]
      simp

theorem toString_data_eq_digits (n : Nat) (hn : 0 < n) :
    (toString n).data = (Nat.digits 10 n).reverse.map Nat.digitChar := by
  have := toDigitsCore_eq_digits (n + 1) n [] hn (by omega)
  simpa [toString, Nat.repr, Nat.toDigits, List.asString] using this

/-- Claim C17: for every exponent `n` with `0 <= n <= 19`, `long_pow10 n` is `10^n`, which
is below `2^64` (`10^19 < 2^64`: no entry overflows an unsigned 64-bit integer), and
`long_double_pow10 n` denotes the same value `10^n`. -/
theorem C17_pow10_tables (n : Nat) (hn : n ≤ MAX_TABLE_EXP) :
    long_pow10 n = 10 ^ n ∧ long_pow10 n < 2 ^ 64 ∧ 10 ^ 19 < 2 ^ 64 ∧
    long_double_pow10 n = ((long_pow10 n : Nat) : ℚ) ∧ long_double_pow10 n = 10 ^ n := by
  unfold MAX_TABLE_EXP at hn
  have h19 : 10 ^ 19 < 2 ^ 64 := by norm_num
  have hle : 10 ^ n ≤ 10 ^ 19 := Nat.pow_le_pow_right (by norm_num) hn
  refine ⟨rfl, ?_, h19, ?_, rfl⟩
  · unfold long_pow10
    omega
  · unfold long_pow10 long_double_pow10
    push_cast
    rfl

theorem C17_pow10_tables_witness :
    long_pow10 19 = 10 ^ 19 ∧ long_pow10 19 < 2 ^ 64 ∧ 10 ^ 19 < 2 ^ 64 ∧
    long_double_pow10 19 = ((long_pow10 19 : Nat) : ℚ) ∧ long_double_pow10 19 = 10 ^ 19 :=
  C17_pow10_tables 19 (by decide)

/-- Claim C18: for every `long long` value `val` and every mode, the output is `"+"` (when
`val > 0` and `show_sign`) followed by the decimal representation of `val`: it does not
depend on the mode, zero gives `"0"` without sign, a negative value gives `"-"` followed by
the decimal string of its magnitude; the `unsigned long long` overload behaves the same. -/
theorem C18_integer_overloads :
    (∀ (val : Int) (rt rt2 : RepresentationType) (show_sign : Bool),
      to_string_long_long val rt show_sign
        = (if val > 0 ∧ show_sign = true then "+" else "") ++ toString val ∧
      to_string_long_long val rt show_sign = to_string_long_long val rt2 show_sign ∧
      (val = 0 → to_string_long_long val rt show_sign = "0") ∧
      (val < 0 → to_string_long_long val rt show_sign = "-" ++ toString val.natAbs ∧
        begins_with (to_string_long_long val rt show_sign) "-") ∧
      (val > 0 → to_string_long_long val rt show_sign
        = (if show_sign = true then "+" else "") ++ toString val.natAbs)) ∧
    (∀ (val : Nat) (rt rt2 : RepresentationType) (show_sign : Bool),
      to_string_unsigned_long_long val rt show_sign
        = (if val > 0 ∧ show_sign = true then "+" else "") ++ toString val ∧
      to_string_unsigned_long_long val rt show_sign
        = to_string_unsigned_long_long val rt2 show_sign ∧
      (val = 0 → to_string_unsigned_long_long val rt show_sign = "0")) := by
  constructor
  · intro val rt rt2 ss
    refine ⟨rfl, rfl, ?_, ?_, ?_⟩
    · intro h
      subst h
      simp [to_string_long_long]
      rfl
    · intro h
      have hnot : ¬ (val > 0 ∧ ss = true) := fun hc => by omega
      obtain ⟨m, rfl⟩ := Int.eq_negSucc_of_lt_zero h
      have heq : to_string_long_long (Int.negSucc m) rt ss
          = "-" ++ toString (Int.negSucc m).natAbs := by
        simp only [to_string_long_long, if_neg hnot]
        rfl
      refine ⟨heq, ?_⟩
      rw [heq]
      unfold begins_with
      rw [String.data_append]
      exact List.prefix_append _ _
    · intro h
      obtain ⟨m, rfl⟩ := Int.eq_ofNat_of_zero_le (le_of_lt h)
      simp only [to_string_long_long, h, true_and]
      rfl
  · intro val rt rt2 ss
    refine ⟨rfl, rfl, ?_⟩
    intro h
    subst h
    simp [to_string_unsigned_long_long]
    rfl

theorem C18_integer_overloads_witness :
    to_string_long_long (-42) RepresentationType.LATEX true = "-" ++ toString (-42 : Int).natAbs ∧
    begins_with (to_string_long_long (-42) RepresentationType.LATEX true) "-" :=
  (C18_integer_overloads.1 (-42) RepresentationType.LATEX RepresentationType.PLAIN true).2.2.2.1
    (by decide)

theorem container_loop_eq {α : Type} (fmt : α → String) (object : List α) :
    ∀ (fuel it : Nat) (text : String), it ≤ object.length → object.length - it < fuel →
      container_loop fmt object fuel it text
        = some (String.intercalate.go text ", " ((object.drop it).map fmt)) := by
  intro fuel
  induction fuel with
  | zero => intro it text _ h; omega
  | succ fuel ih =>
    intro it text hle hfuel
    unfold container_loop
    split
    · rename_i heq
      rw [heq, List.drop_length]
      rfl
    · rename_i hne
      have hlt : it < object.length := by omega
      rw [List.getElem?_eq_getElem hlt]
      simp only
      rw [ih (it + 1) _ (by omega) (by omega), List.drop_eq_getElem_cons hlt]
      simp only [List.map_cons, String.intercalate.go, String.append_assoc]

theorem container_loop_empty {α : Type} (fmt : α → String) (fuel : Nat) (text : String) :
    container_loop fmt ([] : List α) fuel 1 text = none := by
  cases fuel with
  | zero => rfl
  | succ fuel => simp [container_loop]

/-- Claim C19 (fails on the code for the empty vector): for a non-empty vector the output
is the opening delimiter, the formatted elements in order joined by `", "`, and the closing
delimiter (`[`, `]` in PLAIN mode, `\left[`, `\right]` in LATEX mode); for the empty vector
the loop starts at `object.begin() + 1`, beyond `object.end()`, and dereferences it:
undefined behaviour instead of `"[]"`. -/
theorem C19_vector_join_and_empty_vector {α Args : Type}
    (fmt : RepresentationType → Args → α → String) (args : Args) :
    (∀ (x : α) (xs : List α),
      to_string_vector fmt (x :: xs) RepresentationType.PLAIN args
        = some ("[" ++ String.intercalate ", "
            ((x :: xs).map (fmt RepresentationType.PLAIN args)) ++ "]") ∧
      to_string_vector fmt (x :: xs) RepresentationType.LATEX args
        = some ("\\left[" ++ String.intercalate ", "
            ((x :: xs).map (fmt RepresentationType.LATEX args)) ++ "\\right]")) ∧
    to_string_vector fmt [] RepresentationType.PLAIN args = none ∧
    to_string_vector fmt [] RepresentationType.LATEX args = none := by
  refine ⟨fun x xs => ⟨?_, ?_⟩, ?_, ?_⟩
  · simp only [to_string_vector]
    rw [container_loop_eq _ _ _ _ _ (by simp) (by simp; omega)]
    simp [String.intercalate]
  · simp only [to_string_vector]
    rw [container_loop_eq _ _ _ _ _ (by simp) (by simp; omega)]
    simp [String.intercalate]
  · simp [to_string_vector, container_loop_empty]
  · simp [to_string_vector, container_loop_empty]

/-- Claim C20 (fails on the code for the empty map): for a non-empty map the PLAIN output
is `{`, the entries in key order, each `to_string(key, PLAIN) ++ ": " ++
to_string(value, PLAIN, args...)`, joined by `", "`, and `}`: the extra arguments reach the
values only. For the empty map the loop starts at `object.begin() + 1`, beyond
`object.end()`, and dereferences it: undefined behaviour instead of the empty braces. -/
theorem C20_map_join_and_empty_map {κ τ Args : Type}
    (fmt_key : RepresentationType → κ → String)
    (fmt_val : RepresentationType → Args → τ → String) (args : Args) :
    (∀ (x : κ × τ) (xs : List (κ × τ)),
      to_string_map fmt_key fmt_val (x :: xs) RepresentationType.PLAIN args
        = some ("\x7b" ++ String.intercalate ", "
            ((x :: xs).map (fun e => fmt_key RepresentationType.PLAIN e.1 ++ ": " ++
              fmt_val RepresentationType.PLAIN args e.2)) ++ "\x7d")) ∧
    to_string_map fmt_key fmt_val [] RepresentationType.PLAIN args = none := by
  refine ⟨fun x xs => ?_, ?_⟩
  · simp only [to_string_map]
    rw [container_loop_eq _ _ _ _ _ (by simp) (by simp; omega)]
    simp [String.intercalate]
  · simp [to_string_map, container_loop_empty]

/-- Claim C23: `sgn val` is 1 for `val > 0`, -1 for `val < 0` and 0 for `val = 0`; it is
always in {-1, 0, 1}, and `sgn (-val) = -sgn val`. -/
theorem C23_sgn (val : Int) :
    (0 < val → sgn val = 1) ∧ (val < 0 → sgn val = -1) ∧ (val = 0 → sgn val = 0) ∧
    (sgn val = -1 ∨ sgn val = 0 ∨ sgn val = 1) ∧ sgn (-val) = -sgn val := by
  unfold sgn
  refine ⟨fun h => ?_, fun h => ?_, fun h => ?_, ?_, ?_⟩
  · rw [if_pos h, if_neg (by omega)]; rfl
  · rw [if_neg (by omega), if_pos h]; rfl
  · subst h; rfl
  · split <;> split <;> omega
  · split <;> split <;> split <;> split <;> omega

theorem C23_sgn_witness : sgn (-7) = -1 :=
  (C23_sgn (-7)).2.1 (by decide)

theorem std_round_toNat_le (r : ℚ) (B : Nat) (hr : 0 ≤ r) (h : r < B) :
    (std_round r).toNat ≤ B := by
  unfold std_round
  rw [if_pos hr]
  have h1 : ⌊r + 1 / 2⌋ < (B : Int) + 1 := by
    rw [Int.floor_lt]
    push_cast
    linarith
  omega

theorem base_of_le (q : ℚ) (p : Nat) : base_of q p (exponent_of q p) ≤ 10 ^ p := by
  by_cases hq : q = 0
  · rw [hq, base_of_zero]
    exact Nat.zero_le _
  have ha : log10_arg q p < (10 : ℚ) ^ (exponent_of q p + 1) :=
    Int.lt_zpow_succ_log_self (by norm_num) (log10_arg q p)
  have hqa : |q| < (10 : ℚ) ^ (exponent_of q p + 1) := lt_of_le_of_lt (le_log10_arg q p hq) ha
  generalize exponent_of q p = e at hqa
  have hq0 : 0 ≤ |q| := abs_nonneg q
  unfold base_of
  split
  · rename_i hbr
    have hk : e + 1 = (((e - p + 1).toNat + p : Nat) : Int) := by omega
    apply std_round_toNat_le _ _ (by unfold long_double_pow10; positivity)
    rw [hk, zpow_natCast, pow_add] at hqa
    unfold long_double_pow10
    have h10 : (0 : ℚ) < 10 ^ (e - p + 1).toNat := by positivity
    rw [div_lt_iff₀ h10]
    push_cast
    linarith
  · rename_i hbr
    have hk : e + 1 = ((p : Nat) : Int) - (((p : Int) - e - 1).toNat : Int) := by omega
    apply std_round_toNat_le _ _ (by unfold long_double_pow10; positivity)
    rw [hk, zpow_sub₀ (by norm_num), zpow_natCast, zpow_natCast] at hqa
    unfold long_double_pow10
    have h10 : (0 : ℚ) < 10 ^ ((p : Int) - e - 1).toNat := by positivity
    rw [lt_div_iff₀ h10] at hqa
    push_cast
    linarith

theorem to_string_of_neg (q : ℚ) (rt : RepresentationType) (p : Nat) (ss : Bool)
    (li ls : Int) (hq : q < 0) (hp : 1 ≤ p) :
    ∃ s, to_string (LongDouble.finite q) rt p ss li ls = some ("-" ++ s) := by
  have hb0 := base_of_ne_zero q p (ne_of_lt hq) hp
  have hminus : sign_of q ss = "-" := by
    simp [sign_of, hq, not_lt.mpr (le_of_lt hq)]
  obtain ⟨r, hr⟩ := render_total rt p "" (scientific q p li ls) (exponent_of q p)
    (base_of q p (exponent_of q p)) (Or.inr (base_of_ge q p (ne_of_lt hq) hp))
  rw [to_string_finite q rt p _ li ls (by omega), hminus,
    render_sign rt p "-" _ _ _ (fun _ => hb0), hr]
  exact ⟨r, rfl⟩

/-- Claim C26: in exact arithmetic, for every precision `p` at least 1, `base = 0` if and
only if the value is zero, and `10^(p-1) <= base <= 10^p` for every finite nonzero value;
so the unsigned `base == 0` branch is taken only for zero, and a negative value always
keeps its `"-"`. -/
theorem C26_base_bounds (q : ℚ) (precision : Nat) (hp : 1 ≤ precision) :
    (base_of q precision (exponent_of q precision) = 0 ↔ q = 0) ∧
    (q ≠ 0 → 10 ^ (precision - 1) ≤ base_of q precision (exponent_of q precision) ∧
      base_of q precision (exponent_of q precision) ≤ 10 ^ precision) ∧
    (q < 0 → ∀ (rt : RepresentationType) (show_sign : Bool) (lim_inf lim_sup : Int),
      ∃ s, to_string (LongDouble.finite q) rt precision show_sign lim_inf lim_sup
        = some ("-" ++ s)) := by
  refine ⟨⟨fun h => ?_, fun h => ?_⟩, fun hq => ⟨base_of_ge q precision hq hp,
    base_of_le q precision⟩, fun hq rt ss li ls => ?_⟩
  · by_contra hq
    exact base_of_ne_zero q precision hq hp h
  · rw [h]
    exact base_of_zero _ _
  · exact to_string_of_neg q rt precision ss li ls hq hp

theorem C26_base_bounds_witness :
    (base_of (10237 / 1024) 3 (exponent_of (10237 / 1024) 3) = 0 ↔ (10237 / 1024 : ℚ) = 0) ∧
    ((10237 / 1024 : ℚ) ≠ 0 →
      10 ^ (3 - 1) ≤ base_of (10237 / 1024) 3 (exponent_of (10237 / 1024) 3) ∧
      base_of (10237 / 1024) 3 (exponent_of (10237 / 1024) 3) ≤ 10 ^ 3) :=
  ⟨(C26_base_bounds (10237 / 1024) 3 (by decide)).1,
    (C26_base_bounds (10237 / 1024) 3 (by decide)).2.1⟩

theorem exponent_lt_of_not_scientific (q : ℚ) (p : Nat) (li ls : Int)
    (hs : scientific q p li ls = false) : exponent_of q p < ls := by
  simp only [scientific, decide_eq_false_iff_not, not_or, not_le] at hs
  exact (Int.lt_zpow_iff_log_lt (b := 10) (by norm_num) (log10_arg_pos q p)).1 hs.1

theorem fread_append (pre bytes rest : List Nat) (n : Nat) (h : bytes.length = n) :
    fread n ⟨pre ++ (bytes ++ rest), pre.length⟩
      = some (bytes, ⟨pre ++ (bytes ++ rest), pre.length + n⟩) := by
  subst h
  unfold fread
  rw [if_pos (by simp only [List.length_append]; omega)]
  simp only [List.drop_left, List.take_left]

theorem unsigned_int_bytes_length (n : Nat) : (unsigned_int_bytes n).length = sizeof_int := rfl

theorem unsigned_int_round_trip (n : Nat) (h : n < 2 ^ 32) :
    unsigned_int_of_bytes (unsigned_int_bytes n) = n := by
  simp only [unsigned_int_bytes, unsigned_int_of_bytes]
  omega

theorem int_bytes_length (v : Int) : (int_bytes v).length = sizeof_int := rfl

theorem int_round_trip (v : Int) (h1 : -2 ^ 31 ≤ v) (h2 : v < 2 ^ 31) :
    int_of_bytes (int_bytes v) = v := by
  have hu : (v % 2 ^ 32).toNat < 2 ^ 32 := by omega
  simp only [int_of_bytes, int_bytes, unsigned_int_round_trip _ hu]
  split <;> omega

theorem read_chars_append (n : Nat) : ∀ (pre cs rest : List Nat), cs.length = n →
    read_chars n ⟨pre ++ (cs ++ rest), pre.length⟩
      = some (cs, ⟨pre ++ (cs ++ rest), pre.length + n⟩) := by
  induction n with
  | zero =>
    intro pre cs rest h
    have : cs = [] := List.length_eq_zero.mp h
    subst this
    simp [read_chars]
  | succ n ih =>
    intro pre cs rest h
    match cs, h with
    | c :: cs, h =>
      have hlen : cs.length = n := by simpa using h
      have h1 := fread_append pre [c] (cs ++ rest) 1 rfl
      have h2 := ih (pre ++ [c]) cs rest hlen
      simp only [List.append_assoc, List.singleton_append, List.length_append,
        List.length_singleton] at h1 h2
      simp only [read_chars, List.cons_append]
      rw [h1]
      simp only [Option.some_bind]
      rw [h2]
      simp [Nat.add_assoc, Nat.add_comm 1 n]

/-- Claim C22: round trip of primitives through the binary file routines. An `int` is
written as exactly `sizeof(int)` bytes appended to the stream, and reading at that position
consumes exactly those bytes and returns the same value; a `bool` is written as one `char`
and read back as `char != 0`; a `std::complex<K>` is written as its real part followed by
its imaginary part and read back in that order. -/
theorem C22_primitive_round_trip :
    (∀ (v : Int) (file : FILE), -2 ^ 31 ≤ v → v < 2 ^ 31 → file.pos = file.data.length →
      (int_bytes v).length = sizeof_int ∧
      write_to_file_int v file = ⟨file.data ++ int_bytes v, file.pos⟩ ∧
      read_from_file_int (write_to_file_int v file)
        = some (v, ⟨file.data ++ int_bytes v, file.pos + sizeof_int⟩)) ∧
    (∀ (b : Bool) (file : FILE), file.pos = file.data.length →
      write_to_file_bool b file = ⟨file.data ++ [if b then 1 else 0], file.pos⟩ ∧
      read_from_file_bool (write_to_file_bool b file)
        = some (b, ⟨file.data ++ [if b then 1 else 0], file.pos + 1⟩)) ∧
    (∀ (c : Nat) (file : FILE), file.pos = file.data.length →
      read_from_file_bool (write_to_file_char c file)
        = some (decide (c ≠ 0), ⟨file.data ++ [c], file.pos + 1⟩)) ∧
    (∀ (K : Type) (P : Primitive K) (z : K × K) (file : FILE),
      (∀ x : K, x = z.1 ∨ x = z.2 →
        (P.to_bytes x).length = P.sizeof ∧ P.of_bytes (P.to_bytes x) = x) →
      file.pos = file.data.length →
        write_to_file_complex P z file
          = ⟨file.data ++ P.to_bytes z.1 ++ P.to_bytes z.2, file.pos⟩ ∧
        read_from_file_complex P (write_to_file_complex P z file)
          = some (z, ⟨file.data ++ P.to_bytes z.1 ++ P.to_bytes z.2,
              file.pos + P.sizeof + P.sizeof⟩)) := by
  have hchar : ∀ (c : Nat) (file : FILE), file.pos = file.data.length →
      read_from_file_bool (write_to_file_char c file)
        = some (decide (c ≠ 0), ⟨file.data ++ [c], file.pos + 1⟩) := by
    intro c file hpos
    obtain ⟨data, pos⟩ := file
    simp only at hpos
    subst hpos
    have h := fread_append data [c] [] 1 rfl
    simp only [List.append_nil] at h
    simp [read_from_file_bool, read_from_file_char, write_to_file_char, fwrite, h]
  refine ⟨?_, ?_, hchar, ?_⟩
  · intro v file h1 h2 hpos
    obtain ⟨data, pos⟩ := file
    simp only at hpos
    subst hpos
    have h := fread_append data (int_bytes v) [] sizeof_int (int_bytes_length v)
    simp only [List.append_nil] at h
    refine ⟨int_bytes_length v, rfl, ?_⟩
    simp [read_from_file_int, write_to_file_int, fwrite, h, int_round_trip v h1 h2]
  · intro b file hpos
    refine ⟨rfl, ?_⟩
    have := hchar (if b then 1 else 0) file hpos
    rw [write_to_file_bool, this]
    cases b <;> simp
  · intro K P z file hP hpos
    obtain ⟨data, pos⟩ := file
    simp only at hpos
    subst hpos
    obtain ⟨hl1, hr1⟩ := hP z.1 (Or.inl rfl)
    obtain ⟨hl2, hr2⟩ := hP z.2 (Or.inr rfl)
    refine ⟨by simp [write_to_file_complex, write_to_file_primitive, fwrite], ?_⟩
    have h1 := fread_append data (P.to_bytes z.1) (P.to_bytes z.2) P.sizeof hl1
    have h2 := fread_append (data ++ P.to_bytes z.1) (P.to_bytes z.2) [] P.sizeof hl2
    simp only [List.append_nil, List.length_append, hl1, List.append_assoc] at h2
    simp [read_from_file_complex, read_from_file_primitive, write_to_file_complex,
      write_to_file_primitive, fwrite, h1, h2, hr1, hr2]

theorem C22_primitive_round_trip_witness :
    read_from_file_int (write_to_file_int (-5) ⟨[1, 2], 2⟩)
      = some (-5, ⟨[1, 2] ++ int_bytes (-5), 2 + sizeof_int⟩) ∧
    read_from_file_complex int_primitive (write_to_file_complex int_primitive (3, -4) ⟨[], 0⟩)
      = some ((3, -4), ⟨[] ++ int_bytes 3 ++ int_bytes (-4), 0 + sizeof_int + sizeof_int⟩) :=
  ⟨(C22_primitive_round_trip.1 (-5) ⟨[1, 2], 2⟩ (by decide) (by decide) rfl).2.2,
    (C22_primitive_round_trip.2.2.2 Int int_primitive (3, -4) ⟨[], 0⟩
      (fun x hx => by rcases hx with h | h <;> subst h <;> decide) rfl).2⟩

theorem read_from_file_unsigned_int_append (pre rest : List Nat) (n : Nat) (h : n < 2 ^ 32) :
    read_from_file_unsigned_int ⟨pre ++ (unsigned_int_bytes n ++ rest), pre.length⟩
      = some (n, ⟨pre ++ (unsigned_int_bytes n ++ rest), pre.length + sizeof_int⟩) := by
  simp [read_from_file_unsigned_int,
    fread_append pre (unsigned_int_bytes n) rest sizeof_int (unsigned_int_bytes_length n),
    unsigned_int_round_trip n h]

theorem read_from_file_int_append (pre rest : List Nat) (v : Int) (h1 : -2 ^ 31 ≤ v)
    (h2 : v < 2 ^ 31) :
    read_from_file_int ⟨pre ++ (int_bytes v ++ rest), pre.length⟩
      = some (v, ⟨pre ++ (int_bytes v ++ rest), pre.length + sizeof_int⟩) := by
  simp [read_from_file_int,
    fread_append pre (int_bytes v) rest sizeof_int (int_bytes_length v),
    int_round_trip v h1 h2]

theorem string_of_buffer_no_nul (s : List Nat) (h : 0 ∉ s) : string_of_buffer s = none := by
  simp [string_of_buffer, h]

theorem write_to_file_string_data (s : List Nat) (file : FILE) :
    write_to_file_string s file
      = ⟨file.data ++ (unsigned_int_bytes (s.length % 2 ^ 32) ++ (s ++ [0])), file.pos⟩ := by
  simp [write_to_file_string, write_to_file_unsigned_int, fwrite]

theorem read_from_file_string_write (s : List Nat) (file : FILE) (rest : List Nat)
    (hs : 0 ∉ s) (hlen : s.length < 2 ^ 32) (hpos : file.pos = file.data.length) :
    read_from_file_string
        ⟨(write_to_file_string s file).data ++ rest, (write_to_file_string s file).pos⟩
      = some (none, ⟨(write_to_file_string s file).data ++ rest,
          file.pos + (sizeof_int + s.length)⟩) := by
  obtain ⟨data, pos⟩ := file
  simp only at hpos
  subst hpos
  rw [write_to_file_string_data]
  simp only [Nat.mod_eq_of_lt hlen, List.append_assoc]
  have h1 := read_from_file_unsigned_int_append data (s ++ ([0] ++ rest)) s.length hlen
  have h2 := read_chars_append s.length (data ++ unsigned_int_bytes s.length) s ([0] ++ rest) rfl
  simp only [List.append_assoc, List.length_append, unsigned_int_bytes_length] at h1 h2
  simp only [read_from_file_string, h1, Option.some_bind, h2, Option.map_some',
    string_of_buffer_no_nul s hs, Nat.add_assoc]

/-- Claim C30 (fails on the code): the string "ab" (bytes 97, 98) written twice to an empty
stream produces 7 + 7 bytes; the first read consumes only 6 of the first 7 (the terminating
NUL is left in the stream) and builds `std::string` from a buffer without terminator
(undefined behaviour); the second read then starts at the NUL, takes the size 512 from the
bytes 0, 2, 0, 0 and cannot be completed. -/
theorem C30_string_read_leaves_terminator :
    (write_to_file_string [97, 98] ⟨[], 0⟩).data.length = sizeof_int + 2 + 1 ∧
    read_from_file_string (write_to_file_string [97, 98] (write_to_file_string [97, 98] ⟨[], 0⟩))
      = some (none, ⟨[2, 0, 0, 0, 97, 98, 0, 2, 0, 0, 0, 97, 98, 0], sizeof_int + 2⟩) ∧
    read_from_file_unsigned_int ⟨[2, 0, 0, 0, 97, 98, 0, 2, 0, 0, 0, 97, 98, 0], sizeof_int + 2⟩
      = some (512, ⟨[2, 0, 0, 0, 97, 98, 0, 2, 0, 0, 0, 97, 98, 0], sizeof_int + 2 + 4⟩) ∧
    read_from_file_string ⟨[2, 0, 0, 0, 97, 98, 0, 2, 0, 0, 0, 97, 98, 0], sizeof_int + 2⟩
      = none := by
  refine ⟨by decide, ?_, by decide, by decide⟩
  have h := read_from_file_string_write [97, 98] ⟨[], 0⟩ [2, 0, 0, 0, 97, 98, 0] (by decide)
    (by decide) rfl
  exact h

theorem vector_write_loop_eq (object : List Int) : ∀ (fuel it : Nat) (file : FILE),
    it ≤ object.length → object.length - it < fuel →
    vector_write_loop object fuel it file
      = some ⟨file.data ++ ((object.drop it).map int_bytes).flatten, file.pos⟩ := by
  intro fuel
  induction fuel with
  | zero => intro it file _ h; omega
  | succ fuel ih =>
    intro it file hle hfuel
    unfold vector_write_loop
    split
    · rename_i heq
      rw [heq, List.drop_length]
      simp
    · rename_i hne
      have hlt : it < object.length := by omega
      rw [List.getElem?_eq_getElem hlt]
      simp only
      rw [ih (it + 1) _ (by omega) (by omega), List.drop_eq_getElem_cons hlt]
      simp only [write_to_file_int, fwrite, List.map_cons, List.flatten_cons,
        List.append_assoc]

theorem take_succ_set (l : List Int) : ∀ (i : Nat) (y : Int), i < l.length →
    (l.set i y).take (i + 1) = l.take i ++ [y] := by
  induction l with
  | nil => intro i y h; simp at h
  | cons a l ih =>
    intro i y h
    cases i with
    | zero => simp
    | succ i =>
      simp only [List.length_cons, Nat.add_lt_add_iff_right] at h
      simp [ih i y h]

theorem vector_read_loop_eq : ∀ (ys : List Int) (fuel it : Nat) (object : List Int)
    (pre rest : List Nat), (∀ y ∈ ys, -2 ^ 31 ≤ y ∧ y < 2 ^ 31) →
    object.length = it + ys.length → ys.length < fuel →
    vector_read_loop fuel it object ⟨pre ++ ((ys.map int_bytes).flatten ++ rest), pre.length⟩
      = some (object.take it ++ ys,
          ⟨pre ++ ((ys.map int_bytes).flatten ++ rest), pre.length + sizeof_int * ys.length⟩) := by
  intro ys
  induction ys with
  | nil =>
    intro fuel it object pre rest _ hlen hfuel
    obtain ⟨fuel, rfl⟩ : ∃ f, fuel = f + 1 := ⟨fuel - 1, by simp at hfuel; omega⟩
    simp only [List.length_nil, Nat.add_zero] at hlen
    simp [vector_read_loop, hlen]
  | cons y ys ih =>
    intro fuel it object pre rest hrange hlen hfuel
    obtain ⟨fuel, rfl⟩ : ∃ f, fuel = f + 1 := ⟨fuel - 1, by simp at hfuel; omega⟩
    simp only [List.length_cons] at hlen hfuel
    have hne : ¬ it = object.length := by omega
    have hlt : it < object.length := by omega
    obtain ⟨hy1, hy2⟩ := hrange y (List.mem_cons_self y ys)
    have hread := read_from_file_int_append pre ((ys.map int_bytes).flatten ++ rest) y hy1 hy2
    have hrec := ih fuel (it + 1) (object.set it y) (pre ++ int_bytes y) rest
      (fun z hz => hrange z (List.mem_cons_of_mem y hz))
      (by rw [List.length_set]; omega) (by omega)
    simp only [List.append_assoc, List.length_append, int_bytes_length] at hrec
    unfold vector_read_loop
    simp only [if_neg hne, if_pos hlt, List.map_cons, List.flatten_cons, List.append_assoc, hread,
      Option.some_bind, hrec]
    have htake := take_succ_set object it y hlt
    simp [htake, Nat.mul_succ, Nat.add_assoc, Nat.add_comm (sizeof_int * ys.length)]

theorem vector_round_trip (x : Int) (xs : List Int) (file : FILE)
    (hrange : ∀ y ∈ xs, -2 ^ 31 ≤ y ∧ y < 2 ^ 31) (hlen : (x :: xs).length < 2 ^ 32)
    (hpos : file.pos = file.data.length) :
    ∃ file2, write_to_file_vector (x :: xs) file = some file2 ∧
      file2.data = file.data ++ (unsigned_int_bytes (x :: xs).length ++
        (xs.map int_bytes).flatten) ∧
      read_from_file_vector file2
        = some (0 :: xs, ⟨file2.data, file2.data.length⟩) := by
  obtain ⟨data, pos⟩ := file
  simp only at hpos
  subst hpos
  refine ⟨⟨data ++ (unsigned_int_bytes (x :: xs).length ++ (xs.map int_bytes).flatten),
    data.length⟩, ?_, rfl, ?_⟩
  · unfold write_to_file_vector
    rw [vector_write_loop_eq _ _ _ _ (by simp) (by simp; omega)]
    have hmod : (xs.length + 1) % 4294967296 = xs.length + 1 :=
      Nat.mod_eq_of_lt (by simpa using hlen)
    simp [write_to_file_unsigned_int, fwrite, hmod]
  · have h1 := read_from_file_unsigned_int_append data ((xs.map int_bytes).flatten)
      (x :: xs).length hlen
    have h2 := vector_read_loop_eq xs ((x :: xs).length + 1) 1
      (List.replicate (x :: xs).length 0) (data ++ unsigned_int_bytes (x :: xs).length) []
      hrange (by simp; omega) (by simp; omega)
    simp only [List.append_nil, List.append_assoc, List.length_append,
      unsigned_int_bytes_length] at h2
    unfold read_from_file_vector
    simp only [h1, Option.some_bind, h2]
    simp [List.replicate_succ, sizeof_int, int_bytes, unsigned_int_bytes, Function.comp_def]
    omega

/-- Claim C21 (fails on the code): the vector {7, 8} written to an empty stream gives the
size 2 followed by the element 8 only (the loop starts at `object.begin() + 1`, so element
0 is not written), and reading it back yields {0, 8}: element 0 is lost. -/
theorem C21_vector_round_trip_loses_first_element :
    write_to_file_vector [7, 8] ⟨[], 0⟩ = some ⟨[2, 0, 0, 0, 8, 0, 0, 0], 0⟩ ∧
    read_from_file_vector ⟨[2, 0, 0, 0, 8, 0, 0, 0], 0⟩
      = some ([0, 8], ⟨[2, 0, 0, 0, 8, 0, 0, 0], 8⟩) ∧
    ([0, 8] : List Int) ≠ [7, 8] ∧
    write_to_file_vector [] ⟨[], 0⟩ = none := by
  obtain ⟨file2, hw, hd, hr⟩ := vector_round_trip 7 [8] ⟨[], 0⟩ (by decide) (by decide) rfl
  have hfile : file2 = ⟨[2, 0, 0, 0, 8, 0, 0, 0], 0⟩ := by
    have : write_to_file_vector [7, 8] ⟨[], 0⟩ = some ⟨[2, 0, 0, 0, 8, 0, 0, 0], 0⟩ := by decide
    rw [this] at hw
    exact (Option.some.inj hw).symm
  subst hfile
  exact ⟨hw, hr, by decide, by decide⟩

theorem digitChar_isDigit (d : Nat) (h : d < 10) : (Nat.digitChar d).isDigit = true := by
  interval_cases d <;> decide

theorem toString_nat_isDigit (n : Nat) : ∀ c ∈ (toString n).data, c.isDigit = true := by
  rcases Nat.eq_zero_or_pos n with h | h
  · subst h
    decide
  · intro c hc
    rw [toString_data_eq_digits n h] at hc
    simp only [List.map_reverse, List.mem_reverse, List.mem_map] at hc
    obtain ⟨d, hd, rfl⟩ := hc
    exact digitChar_isDigit d (Nat.digits_lt_base (by norm_num) hd)

theorem toString_nat_head (n : Nat) :
    ∃ c rest, (toString n).data = c :: rest ∧ c.isDigit = true := by
  have hlen := toString_nat_length_pos n
  cases hd : (toString n).data with
  | nil =>
    have : (toString n).length = 0 := by
      show (toString n).data.length = 0
      rw [hd]; rfl
    omega
  | cons c rest =>
    exact ⟨c, rest, rfl, toString_nat_isDigit n c (by rw [hd]; exact List.mem_cons_self c rest)⟩

theorem not_begins_with_minus (s : String) (c : Char) (rest : List Char)
    (h : s.data = c :: rest) (hc : c ≠ '-') : ¬ begins_with s "-" := by
  unfold begins_with
  rw [h]
  intro hpre
  obtain ⟨u, hu⟩ := hpre
  simp at hu
  exact hc hu.1.symm

theorem isDigit_ne_minus (c : Char) (h : c.isDigit = true) : c ≠ '-' := by
  intro hc
  subst hc
  revert h
  decide

theorem begins_with_minus_iff (s : String) :
    begins_with s "-" ↔ s.data.head? = some '-' := by
  unfold begins_with
  cases hd : s.data with
  | nil => simp
  | cons c rest =>
    constructor
    · intro h
      obtain ⟨u, hu⟩ := h
      simp at hu
      rw [← hu.1]
      rfl
    · intro h
      simp at h
      subst h
      exact ⟨rest, rfl⟩

theorem head?_toString_nat (n : Nat) :
    ∃ c, (toString n).data.head? = some c ∧ c ≠ '-' := by
  obtain ⟨c, rest, h, hc⟩ := toString_nat_head n
  exact ⟨c, by rw [h]; rfl, isDigit_ne_minus c hc⟩

theorem render_not_minus (rt : RepresentationType) (p : Nat) (sign : String) (sci : Bool)
    (e : Int) (b : Nat) (s : String) (hsign : sign = "" ∨ sign = "+")
    (h : render rt p sign sci e b = some s) : ¬ begins_with s "-" := by
  rw [begins_with_minus_iff]
  obtain ⟨c0, r0, hb, hc0⟩ := toString_nat_head b
  have hc0' := isDigit_ne_minus c0 hc0
  have hlen : 1 ≤ (toString b).length := toString_nat_length_pos b
  unfold render at h
  split at h
  · split at h
    · injection h with h
      subst h
      rcases hsign with hs | hs <;> subst hs <;> cases rt <;>
        simp [String.data_append]
    · simp only [string_insert, if_pos hlen, Option.map_some', hb] at h
      injection h with h
      subst h
      rcases hsign with hs | hs <;> subst hs <;>
        simp [String.data_append, hc0']
  · split at h
    · injection h with h
      subst h
      simp [String.data_append]
    · split at h
      · split at h
        · injection h with h
          subst h
          obtain ⟨c1, h1, hc1⟩ := head?_toString_nat
            (b * long_pow10 (e + 1 - (p : Int)).toNat % 2 ^ 64)
          rcases hsign with hs | hs <;> subst hs
          · rw [String.empty_append, h1]
            simpa using hc1
          · simp [String.data_append]
        · rename_i he hep
          obtain ⟨k, hk⟩ : ∃ k, (e + 1).toNat = k + 1 := ⟨e.toNat, by omega⟩
          simp only [string_insert, hk, hb] at h
          split at h
          · simp only [Option.map_some'] at h
            injection h with h
            subst h
            rcases hsign with hs | hs <;> subst hs <;>
              simp [String.data_append, hc0']
          · simp at h
      · injection h with h
        subst h
        rcases hsign with hs | hs <;> subst hs <;>
          simp [String.data_append]

theorem sign_of_nonneg (q : ℚ) (ss : Bool) (hq : ¬ q < 0) :
    sign_of q ss = "" ∨ sign_of q ss = "+" := by
  unfold sign_of
  split_ifs <;> simp

theorem to_string_exists (x : LongDouble) (rt : RepresentationType) (p : Nat) (ss : Bool)
    (li ls : Int) : ∃ s, to_string x rt p ss li ls = some s := by
  by_cases hp : p = 0
  · exact ⟨"0", by simp [to_string, hp]⟩
  · cases x with
    | inf negative => exact ⟨_, by simp [to_string, hp]; rfl⟩
    | nan => exact ⟨_, by simp [to_string, hp]; rfl⟩
    | finite q => exact to_string_total q rt p ss li ls (by omega)

theorem to_string_not_minus (x : LongDouble) (rt : RepresentationType) (p : Nat) (ss : Bool)
    (li ls : Int) (s : String) (hx : x.lt_zero = false)
    (h : to_string x rt p ss li ls = some s) : ¬ begins_with s "-" := by
  by_cases hp : p = 0
  · simp [to_string, hp] at h
    subst h
    decide
  · cases x with
    | inf negative =>
      simp [to_string, hp] at h
      subst h
      cases rt <;> decide
    | nan =>
      simp [to_string, hp] at h
      subst h
      cases rt <;> decide
    | finite q =>
      have hq : ¬ q < 0 := by simpa [LongDouble.lt_zero] using hx
      rw [to_string_finite q rt p ss li ls hp] at h
      exact render_not_minus rt p _ _ _ _ s (sign_of_nonneg q ss hq) h

theorem neg_lt_zero (x : LongDouble) (hx : x.lt_zero = true) : x.neg.lt_zero = false := by
  cases x with
  | inf negative => simp [LongDouble.lt_zero] at hx; simp [LongDouble.neg, LongDouble.lt_zero, hx]
  | nan => simp [LongDouble.lt_zero] at hx
  | finite q =>
    simp [LongDouble.lt_zero] at hx
    simp [LongDouble.neg, LongDouble.lt_zero]
    linarith

/-- Claim C29: for a complex number with parts `re` and `im`: if `im < 0` the output is
`to_string(re) ++ " - " ++ to_string(-im) ++ i`, otherwise it is
`to_string(re) ++ " + " ++ to_string(im) ++ i`, where `i` is `"i"` in PLAIN mode and
`"\mathrm{i}"` in LATEX mode and both parts are formatted with the same extra arguments.
The string of the imaginary part never begins with `"-"`. -/
theorem C29_complex (re im : LongDouble) (rt : RepresentationType) (precision : Nat)
    (show_sign : Bool) (lim_inf lim_sup : Int) :
    ∃ r m, to_string re rt precision show_sign lim_inf lim_sup = some r ∧
      to_string (if im.lt_zero = true then im.neg else im) rt precision show_sign
        lim_inf lim_sup = some m ∧
      to_string_complex re im rt precision show_sign lim_inf lim_sup
        = some (r ++ (if im.lt_zero = true then " - " else " + ") ++ m ++
            (if rt = RepresentationType.PLAIN then "i" else "\\mathrm\x7bi\x7d")) ∧
      ¬ begins_with m "-" := by
  obtain ⟨r, hr⟩ := to_string_exists re rt precision show_sign lim_inf lim_sup
  obtain ⟨m, hm⟩ := to_string_exists (if im.lt_zero = true then im.neg else im) rt precision
    show_sign lim_inf lim_sup
  refine ⟨r, m, hr, hm, ?_, ?_⟩
  · unfold to_string_complex
    by_cases hneg : im.lt_zero = true
    · simp only [hneg, if_true] at hm ⊢
      simp [hr, hm]
    · have hf : im.lt_zero = false := by simpa using hneg
      rw [hf] at hm ⊢
      simp only [Bool.false_eq_true, if_false] at hm ⊢
      simp [hr, hm]
  · by_cases hneg : im.lt_zero = true
    · simp only [hneg, if_true] at hm
      exact to_string_not_minus _ rt precision show_sign lim_inf lim_sup m
        (neg_lt_zero im hneg) hm
    · have hf : im.lt_zero = false := by simpa using hneg
      rw [hf] at hm
      simp only [Bool.false_eq_true, if_false] at hm
      exact to_string_not_minus _ rt precision show_sign lim_inf lim_sup m hf hm

theorem digits_foldl_acc (cs : List Char) : ∀ acc : Nat,
    cs.foldl (fun acc c => 10 * acc + (c.toNat - 48)) acc
      = acc * 10 ^ cs.length + digits_value cs := by
  unfold digits_value
  induction cs with
  | nil => intro acc; simp
  | cons c cs ih =>
    intro acc
    simp only [List.foldl_cons, List.length_cons]
    rw [ih (10 * acc + (c.toNat - 48)), ih (10 * 0 + (c.toNat - 48))]
    ring

theorem digits_value_append (a b : List Char) :
    digits_value (a ++ b) = digits_value a * 10 ^ b.length + digits_value b := by
  conv_lhs => unfold digits_value
  rw [List.foldl_append, digits_foldl_acc b]
  rfl

theorem digitChar_toNat (d : Nat) (h : d < 10) : (Nat.digitChar d).toNat - 48 = d := by
  interval_cases d <;> decide

theorem digits_value_of_digits (l : List Nat) (h : ∀ d ∈ l, d < 10) :
    digits_value (l.reverse.map Nat.digitChar) = Nat.ofDigits 10 l := by
  induction l with
  | nil => rfl
  | cons d l ih =>
    have hd : d < 10 := h d (List.mem_cons_self d l)
    have ih' := ih (fun x hx => h x (List.mem_cons_of_mem d hx))
    rw [List.reverse_cons, List.map_append, digits_value_append, ih', Nat.ofDigits_cons]
    simp only [List.map_cons, List.map_nil, List.length_singleton, pow_one]
    have : digits_value [Nat.digitChar d] = d := by
      simp [digits_value, digitChar_toNat d hd]
    rw [this]
    ring

theorem digits_value_toString (n : Nat) : digits_value (toString n).data = n := by
  rcases Nat.eq_zero_or_pos n with h | h
  · subst h
    decide
  · rw [toString_data_eq_digits n h,
      digits_value_of_digits _ (fun d hd => Nat.digits_lt_base (by norm_num) hd),
      Nat.ofDigits_digits]

theorem digits_value_replicate_zero (k : Nat) : digits_value (List.replicate k '0') = 0 := by
  induction k with
  | zero => rfl
  | succ k ih =>
    rw [List.replicate_succ']
    rw [digits_value_append, ih]
    decide

theorem isDigit_ne_dot (c : Char) (h : c.isDigit = true) : decide (c ≠ '.') = true := by
  have : c ≠ '.' := by
    intro hc
    subst hc
    revert h
    decide
  simpa using this

theorem takeWhile_digits (l r : List Char) (h : ∀ c ∈ l, c.isDigit = true) :
    (l ++ '.' :: r).takeWhile (fun c => c ≠ '.') = l ∧
    (l ++ '.' :: r).dropWhile (fun c => c ≠ '.') = '.' :: r := by
  induction l with
  | nil => simp
  | cons a l ih =>
    have ha := isDigit_ne_dot a (h a (List.mem_cons_self a l))
    have ih' := ih (fun c hc => h c (List.mem_cons_of_mem a hc))
    simp only [List.cons_append, List.takeWhile_cons, List.dropWhile_cons, ha, if_true]
    exact ⟨by rw [ih'.1], ih'.2⟩

theorem takeWhile_all_digits (l : List Char) (h : ∀ c ∈ l, c.isDigit = true) :
    l.takeWhile (fun c => c ≠ '.') = l ∧ l.dropWhile (fun c => c ≠ '.') = [] := by
  induction l with
  | nil => simp
  | cons a l ih =>
    have ha := isDigit_ne_dot a (h a (List.mem_cons_self a l))
    have ih' := ih (fun c hc => h c (List.mem_cons_of_mem a hc))
    simp only [List.takeWhile_cons, List.dropWhile_cons, ha, if_true]
    exact ⟨by rw [ih'.1], ih'.2⟩

theorem decimal_value_of_parts (ip fp : List Char) (h : ∀ c ∈ ip, c.isDigit = true) :
    decimal_value ⟨ip ++ '.' :: fp⟩ = (digits_value (ip ++ fp) : ℚ) / 10 ^ fp.length := by
  unfold decimal_value
  simp only [(takeWhile_digits ip fp h).1, (takeWhile_digits ip fp h).2, List.drop_one,
    List.tail_cons]

theorem decimal_value_of_integer (n : Nat) : decimal_value (toString n) = n := by
  unfold decimal_value
  simp only [(takeWhile_all_digits _ (toString_nat_isDigit n)).1,
    (takeWhile_all_digits _ (toString_nat_isDigit n)).2, List.drop_nil, List.append_nil,
    List.length_nil, pow_zero, div_one, digits_value_toString]

/-! ## Auxiliary lemmas on the power-of-ten table -/

theorem to_string_checked_of_in_table (x : LongDouble) (rt : RepresentationType) (p : Nat)
    (ss : Bool) (li ls : Int) (h : lookups_in_table x p li ls) :
    to_string_checked x rt p ss li ls = to_string x rt p ss li ls := by
  simp [to_string_checked, h]

theorem to_string_checked_of_lookup (x : LongDouble) (rt : RepresentationType) (p : Nat)
    (ss : Bool) (li ls : Int) (n : Nat) (hn : n ∈ pow10_lookups x p li ls)
    (hgt : MAX_TABLE_EXP < n) : to_string_checked x rt p ss li ls = none := by
  have h : ¬ lookups_in_table x p li ls := fun h => absurd (h n hn) (by omega)
  simp [to_string_checked, h]

theorem lookups_in_table_of_exponent (q : ℚ) (p : Nat) (li ls : Int) (hp : 1 ≤ p)
    (hp18 : p ≤ 18) (h1 : (p : Int) - 20 ≤ exponent_of q p)
    (h2 : exponent_of q p ≤ (p : Int) + 18) :
    lookups_in_table (LongDouble.finite q) p li ls := by
  intro n hn
  have hp0 : p ≠ 0 := by omega
  simp only [pow10_lookups, hp0, if_false, List.mem_append, List.mem_singleton] at hn
  unfold MAX_TABLE_EXP
  rcases hn with (hn | hn) | hn
  · split at hn
    · simp at hn; omega
    · simp at hn
  · split at hn <;> omega
  · split at hn
    · simp at hn; omega
    · split at hn
      · simp at hn; omega
      · simp at hn

theorem precision_le_of_in_table (q : ℚ) (p : Nat) (li ls : Int) (hq : q ≠ 0) (hp : 1 ≤ p)
    (h : lookups_in_table (LongDouble.finite q) p li ls) : p ≤ 18 := by
  have hp0 : p ≠ 0 := by omega
  have hm : p + 1 ∈ pow10_lookups (LongDouble.finite q) p li ls := by
    simp [pow10_lookups, hp0, hq]
  have := h (p + 1) hm
  unfold MAX_TABLE_EXP at this
  omega

theorem base_of_lt_two_pow_64 (q : ℚ) (p : Nat) (li ls : Int) (hp : 1 ≤ p)
    (h : lookups_in_table (LongDouble.finite q) p li ls) :
    base_of q p (exponent_of q p) < 2 ^ 64 := by
  by_cases hq : q = 0
  · rw [hq, base_of_zero]; norm_num
  · have hp18 := precision_le_of_in_table q p li ls hq hp h
    calc base_of q p (exponent_of q p) ≤ 10 ^ p := base_of_le q p
      _ ≤ 10 ^ 18 := Nat.pow_le_pow_right (by norm_num) hp18
      _ < 2 ^ 64 := by norm_num

theorem lookup_mem_of_exponent (q : ℚ) (p : Nat) (li ls : Int) (e : Int) (n : Nat)
    (hp : p ≠ 0) (he : exponent_of q p = e)
    (hn : n = if e - (p : Int) + 1 ≥ 0 then (e - p + 1).toNat else (p - e - 1).toNat) :
    n ∈ pow10_lookups (LongDouble.finite q) p li ls := by
  simp only [pow10_lookups, hp, if_false, he, List.mem_append, List.mem_singleton]
  exact Or.inl (Or.inr hn)

theorem pow10_lookups_neg (q : ℚ) (p : Nat) (li ls : Int) :
    pow10_lookups (LongDouble.finite (-q)) p li ls
      = pow10_lookups (LongDouble.finite q) p li ls := by
  simp only [pow10_lookups, exponent_of_neg, base_of_neg, scientific_neg, ne_eq, neg_eq_zero]

theorem lookups_in_table_neg (q : ℚ) (p : Nat) (li ls : Int)
    (h : lookups_in_table (LongDouble.finite q) p li ls) :
    lookups_in_table (LongDouble.finite (-q)) p li ls := by
  unfold lookups_in_table
  rw [pow10_lookups_neg]
  exact h

/-! ## Claims about calls that stay in the power-of-ten table -/

/-- Claim C6 (as stated, refuted): 2^77 (about 1.5e23, an exact `double`) is at or above
`10^lim_sup` for `lim_sup = 3`, but at precision 3 its exponent is 23 and line 73 looks up
`long_double_pow10 (21)`, outside the table's domain [0, 19]: the call has no defined
output, so no output containing `10^` is guaranteed. -/
theorem C6_counterexample :
    (10 : ℚ) ^ (3 : Int) ≤ |(2 : ℚ) ^ 77| ∧
    21 ∈ pow10_lookups (LongDouble.finite (2 ^ 77)) 3 (-3) 3 ∧
    to_string_checked (LongDouble.finite (2 ^ 77)) RepresentationType.PLAIN 3 false (-3) 3
      = none ∧
    ¬ ∃ s, to_string_checked (LongDouble.finite (2 ^ 77)) RepresentationType.PLAIN 3 false
        (-3) 3 = some s ∧ contains s "10^" := by
  have he : exponent_of (2 ^ 77) 3 = 23 := by
    apply exponent_of_eq <;> simp [log10_arg, long_double_pow10] <;> norm_num
  have h21 : 21 ∈ pow10_lookups (LongDouble.finite (2 ^ 77)) 3 (-3) 3 :=
    lookup_mem_of_exponent _ 3 (-3) 3 23 21 (by decide) he (by decide)
  have hnone := to_string_checked_of_lookup (LongDouble.finite (2 ^ 77))
    RepresentationType.PLAIN 3 false (-3) 3 21 h21 (by decide)
  refine ⟨by norm_num, h21, hnone, ?_⟩
  rintro ⟨s, hs, _⟩
  rw [hnone] at hs
  exact Option.noConfusion hs

/-- Claim C6 (as amended): every finite `x` with `|x| >= 10^lim_sup` whose call stays in
the power-of-ten table is rendered in scientific notation at every precision at least 1
(the output exists and contains `10^`); the bound is inclusive: 1000 with thresholds -3 and
3 at precision 3 gives `"10^(3)"` in PLAIN mode. -/
theorem C6_amended_scientific_at_or_above_upper_threshold :
    (∀ (q : ℚ) (rt : RepresentationType) (precision : Nat) (show_sign : Bool)
        (lim_inf lim_sup : Int), 1 ≤ precision → (10 : ℚ) ^ lim_sup ≤ |q| →
        lookups_in_table (LongDouble.finite q) precision lim_inf lim_sup →
        scientific q precision lim_inf lim_sup = true ∧
        ∃ s, to_string_checked (LongDouble.finite q) rt precision show_sign lim_inf lim_sup
            = some s ∧ contains s "10^") ∧
    to_string_checked (LongDouble.finite 1000) RepresentationType.PLAIN 3 false (-3) 3
      = some "10^(3)" := by
  constructor
  · intro q rt p ss li ls hp hq ht
    have hq0 : q ≠ 0 := by
      intro h
      rw [h, abs_zero] at hq
      have : (0 : ℚ) < 10 ^ ls := by positivity
      linarith
    have hs : scientific q p li ls = true := by
      simp only [scientific, decide_eq_true_eq]
      left
      exact le_trans hq (le_log10_arg q p hq0)
    refine ⟨hs, ?_⟩
    rw [to_string_checked_of_in_table _ _ _ _ _ _ ht,
      to_string_finite q rt p ss li ls (by omega), hs]
    exact render_sci_contains _ _ _ _ _
  · have he : exponent_of 1000 3 = 3 := by
      apply exponent_of_eq <;> simp [log10_arg, long_double_pow10] <;> norm_num
    have hb : base_of 1000 3 3 = 100 := by
      simp [base_of, long_double_pow10]
      apply std_round_toNat_eq <;> norm_num
    have hs : scientific 1000 3 (-3) 3 = true := by
      simp [scientific, log10_arg, long_double_pow10]
      norm_num
    have hg : sign_of 1000 false = "" := by norm_num [sign_of]
    have ht : lookups_in_table (LongDouble.finite 1000) 3 (-3) 3 :=
      lookups_in_table_of_exponent 1000 3 (-3) 3 (by decide) (by decide)
        (by rw [he]; decide) (by rw [he]; decide)
    rw [to_string_checked_of_in_table _ _ _ _ _ _ ht,
      to_string_eval _ _ _ _ _ _ 3 100 true "" (by decide) he hb hs hg]
    decide

theorem C6_amended_scientific_at_or_above_upper_threshold_witness :
    ((10 : ℚ) ^ (3 : Int) ≤ |1000| ∧ lookups_in_table (LongDouble.finite 1000) 3 (-3) 3) ∧
    ∃ s, to_string_checked (LongDouble.finite 1000) RepresentationType.LATEX 3 true (-3) 3
        = some s ∧ contains s "10^" := by
  have he : exponent_of 1000 3 = 3 := by
    apply exponent_of_eq <;> simp [log10_arg, long_double_pow10] <;> norm_num
  have ht : lookups_in_table (LongDouble.finite 1000) 3 (-3) 3 :=
    lookups_in_table_of_exponent 1000 3 (-3) 3 (by decide) (by decide)
      (by rw [he]; decide) (by rw [he]; decide)
  exact ⟨⟨by norm_num, ht⟩,
    (C6_amended_scientific_at_or_above_upper_threshold.1 1000 RepresentationType.LATEX 3 true
      (-3) 3 (by decide) (by norm_num) ht).2⟩

/-- Claim C7 (as stated, refuted): the value 1 is at the lower bound `10^lim_inf` for
`lim_inf = 0`, yet at precision 3 with `lim_sup = 3` it is rendered in fixed-point notation
as `"1.00"` (the call stays in the table); and the claim's example 0.001, as the `double`
nearest to it (1152921504606847/2^60), is rendered as `"0.00100"` with thresholds -3 and 3
at precision 3. -/
theorem C7_counterexample :
    (1 : ℚ) ≠ 0 ∧ |(1 : ℚ)| ≤ (10 : ℚ) ^ (0 : Int) ∧
    to_string_checked (LongDouble.finite 1) RepresentationType.PLAIN 3 false 0 3
      = some "1.00" ∧
    ¬ contains "1.00" "10^" ∧
    to_string_checked (LongDouble.finite (1152921504606847 / 2 ^ 60)) RepresentationType.PLAIN
      3 false (-3) 3 = some "0.00100" ∧
    ¬ contains "0.00100" "10^" := by
  refine ⟨by norm_num, by norm_num, ?_, by decide, ?_, by decide⟩
  · have he : exponent_of 1 3 = 0 := by
      apply exponent_of_eq <;> norm_num [log10_arg, long_double_pow10]
    have hb : base_of 1 3 0 = 100 := by
      simp [base_of, long_double_pow10]
      apply std_round_toNat_eq <;> norm_num
    have hs : scientific 1 3 0 3 = false := by
      simp [scientific, log10_arg, long_double_pow10]
      norm_num
    have hg : sign_of 1 false = "" := by norm_num [sign_of]
    have ht : lookups_in_table (LongDouble.finite 1) 3 0 3 :=
      lookups_in_table_of_exponent 1 3 0 3 (by decide) (by decide)
        (by rw [he]; decide) (by rw [he]; decide)
    rw [to_string_checked_of_in_table _ _ _ _ _ _ ht,
      to_string_eval _ _ _ _ _ _ 0 100 false "" (by decide) he hb hs hg]
    decide
  · have he : exponent_of (1152921504606847 / 2 ^ 60) 3 = -3 := by
      apply exponent_of_eq <;> simp [log10_arg, long_double_pow10, abs_div] <;>
        norm_num [abs_div]
    have hb : base_of (1152921504606847 / 2 ^ 60) 3 (-3) = 100 := by
      simp [base_of, long_double_pow10]
      apply std_round_toNat_eq <;> norm_num [abs_div]
    have hs : scientific (1152921504606847 / 2 ^ 60) 3 (-3) 3 = false := by
      simp [scientific, log10_arg, long_double_pow10, abs_div]
      norm_num [abs_div]
    have hg : sign_of (1152921504606847 / 2 ^ 60) false = "" := by norm_num [sign_of]
    have ht : lookups_in_table (LongDouble.finite (1152921504606847 / 2 ^ 60)) 3 (-3) 3 :=
      lookups_in_table_of_exponent _ 3 (-3) 3 (by decide) (by decide)
        (by rw [he]; decide) (by rw [he]; decide)
    rw [to_string_checked_of_in_table _ _ _ _ _ _ ht,
      to_string_eval _ _ _ _ _ _ (-3) 100 false "" (by decide) he hb hs hg]
    decide

/-- Claim C7 (as amended): every finite nonzero `x` whose nudged magnitude
`|x| * (1 + 1/10^(precision+1))` is at or below `10^lim_inf` and whose call stays in the
power-of-ten table is rendered in scientific notation at every precision at least 1 (the
output exists and contains `10^`); in particular 2^-10 = 0.0009765625 with thresholds -3
and 3 at precision 3 gives `"9.77*10^(-4)"` in PLAIN mode. -/
theorem C7_amended_scientific_below_lower_threshold :
    (∀ (q : ℚ) (rt : RepresentationType) (precision : Nat) (show_sign : Bool)
        (lim_inf lim_sup : Int), q ≠ 0 → 1 ≤ precision →
        |q| * (1 + 1 / 10 ^ (precision + 1)) ≤ (10 : ℚ) ^ lim_inf →
        lookups_in_table (LongDouble.finite q) precision lim_inf lim_sup →
        scientific q precision lim_inf lim_sup = true ∧
        ∃ s, to_string_checked (LongDouble.finite q) rt precision show_sign lim_inf lim_sup
            = some s ∧ contains s "10^") ∧
    to_string_checked (LongDouble.finite (1 / 1024)) RepresentationType.PLAIN 3 false (-3) 3
      = some "9.77*10^(-4)" := by
  constructor
  · intro q rt precision show_sign lim_inf lim_sup hq hp hlow ht
    have hs : scientific q precision lim_inf lim_sup = true := by
      simp only [scientific, decide_eq_true_eq]
      right
      rw [log10_arg_of_ne q precision hq]
      exact hlow
    refine ⟨hs, ?_⟩
    rw [to_string_checked_of_in_table _ _ _ _ _ _ ht,
      to_string_finite q rt precision show_sign lim_inf lim_sup (by omega), hs]
    exact render_sci_contains _ _ _ _ _
  · have he : exponent_of (1 / 1024) 3 = -4 := by
      apply exponent_of_eq <;> simp [log10_arg, long_double_pow10, abs_div] <;>
        norm_num [abs_div]
    have hb : base_of (1 / 1024) 3 (-4) = 977 := by
      simp [base_of, long_double_pow10]
      apply std_round_toNat_eq <;> norm_num [abs_div]
    have hs : scientific (1 / 1024) 3 (-3) 3 = true := by
      simp [scientific, log10_arg, long_double_pow10, abs_div]
      norm_num [abs_div]
    have hg : sign_of (1 / 1024) false = "" := by norm_num [sign_of]
    have ht : lookups_in_table (LongDouble.finite (1 / 1024)) 3 (-3) 3 :=
      lookups_in_table_of_exponent _ 3 (-3) 3 (by decide) (by decide)
        (by rw [he]; decide) (by rw [he]; decide)
    rw [to_string_checked_of_in_table _ _ _ _ _ _ ht,
      to_string_eval _ _ _ _ _ _ (-4) 977 true "" (by decide) he hb hs hg]
    decide

theorem C7_amended_scientific_below_lower_threshold_witness :
    ((1 : ℚ) / 1024 ≠ 0 ∧ |(1 : ℚ) / 1024| * (1 + 1 / 10 ^ (3 + 1)) ≤ (10 : ℚ) ^ (-3 : Int) ∧
      lookups_in_table (LongDouble.finite (1 / 1024)) 3 (-3) 3) ∧
    ∃ s, to_string_checked (LongDouble.finite (1 / 1024)) RepresentationType.LATEX 3 true
        (-3) 3 = some s ∧ contains s "10^" := by
  have he : exponent_of (1 / 1024) 3 = -4 := by
    apply exponent_of_eq <;> simp [log10_arg, long_double_pow10, abs_div] <;>
      norm_num [abs_div]
  have ht : lookups_in_table (LongDouble.finite (1 / 1024)) 3 (-3) 3 :=
    lookups_in_table_of_exponent _ 3 (-3) 3 (by decide) (by decide)
      (by rw [he]; decide) (by rw [he]; decide)
  exact ⟨⟨by norm_num, by norm_num [abs_div], ht⟩,
    (C7_amended_scientific_below_lower_threshold.1 (1 / 1024) RepresentationType.LATEX 3 true
      (-3) 3 (by norm_num) (by decide) (by norm_num [abs_div]) ht).2⟩

/-- Claim C10 (as stated, refuted): 2^-9 = 0.001953125 is positive, but at precision 18
with thresholds -3 and 3 its exponent is -3 and line 74 looks up `long_double_pow10 (20)`,
outside the table's domain [0, 19]: neither call has a defined output, so the output with
`show_sign = true` is not `"+"` followed by the output with `show_sign = false`. -/
theorem C10_counterexample :
    (0 : ℚ) < 1 / 512 ∧
    20 ∈ pow10_lookups (LongDouble.finite (1 / 512)) 18 (-3) 3 ∧
    to_string_checked (LongDouble.finite (1 / 512)) RepresentationType.PLAIN 18 true (-3) 3
      = none ∧
    ¬ ∃ s, to_string_checked (LongDouble.finite (1 / 512)) RepresentationType.PLAIN 18 false
          (-3) 3 = some s ∧
        to_string_checked (LongDouble.finite (1 / 512)) RepresentationType.PLAIN 18 true
          (-3) 3 = some ("+" ++ s) := by
  have he : exponent_of (1 / 512) 18 = -3 := by
    apply exponent_of_eq <;> simp [log10_arg, long_double_pow10, abs_div] <;>
      norm_num [abs_div]
  have h20 : 20 ∈ pow10_lookups (LongDouble.finite (1 / 512)) 18 (-3) 3 :=
    lookup_mem_of_exponent _ 18 (-3) 3 (-3) 20 (by decide) he (by decide)
  have hnone := to_string_checked_of_lookup (LongDouble.finite (1 / 512))
    RepresentationType.PLAIN 18 true (-3) 3 20 h20 (by decide)
  refine ⟨by norm_num, h20, hnone, ?_⟩
  rintro ⟨s, _, hs⟩
  rw [hnone] at hs
  exact Option.noConfusion hs

/-- Claim C10 (as amended): for every finite `x > 0` whose call stays in the power-of-ten
table, every mode, precision at least 1 and thresholds, the output with `show_sign = true`
is `"+"` followed by the output with `show_sign = false` (both exist); in particular 5 at
precision 2 gives `"+5.0"`. -/
theorem C10_amended_show_sign_positive :
    (∀ (q : ℚ) (rt : RepresentationType) (precision : Nat) (lim_inf lim_sup : Int),
        0 < q → 1 ≤ precision →
        lookups_in_table (LongDouble.finite q) precision lim_inf lim_sup →
        ∃ s, to_string_checked (LongDouble.finite q) rt precision false lim_inf lim_sup
            = some s ∧
          to_string_checked (LongDouble.finite q) rt precision true lim_inf lim_sup
            = some ("+" ++ s)) ∧
    to_string_checked (LongDouble.finite 5) RepresentationType.PLAIN 2 true (-3) 3
      = some "+5.0" := by
  constructor
  · intro q rt p li ls hq hp ht
    rw [to_string_checked_of_in_table _ _ _ _ _ _ ht,
      to_string_checked_of_in_table _ _ _ _ _ _ ht]
    obtain ⟨s, hs⟩ := to_string_total q rt p false li ls hp
    refine ⟨s, hs, ?_⟩
    have hb0 := base_of_ne_zero q p (ne_of_gt hq) hp
    have hplus : sign_of q true = "+" := by simp [sign_of, hq]
    have hnone : sign_of q false = "" := by simp [sign_of, not_lt.mpr (le_of_lt hq)]
    rw [to_string_finite q rt p _ li ls (by omega), hnone] at hs
    rw [to_string_finite q rt p _ li ls (by omega), hplus,
      render_sign rt p "+" _ _ _ (fun _ => hb0), hs]
    rfl
  · have he : exponent_of 5 2 = 0 := by
      apply exponent_of_eq <;> simp [log10_arg, long_double_pow10] <;> norm_num
    have hb : base_of 5 2 0 = 50 := by
      simp [base_of, long_double_pow10]
      apply std_round_toNat_eq <;> norm_num
    have hs : scientific 5 2 (-3) 3 = false := by
      simp [scientific, log10_arg, long_double_pow10]
      norm_num
    have hg : sign_of 5 true = "+" := by norm_num [sign_of]
    have ht : lookups_in_table (LongDouble.finite 5) 2 (-3) 3 :=
      lookups_in_table_of_exponent 5 2 (-3) 3 (by decide) (by decide)
        (by rw [he]; decide) (by rw [he]; decide)
    rw [to_string_checked_of_in_table _ _ _ _ _ _ ht,
      to_string_eval _ _ _ _ _ _ 0 50 false "+" (by decide) he hb hs hg]
    decide

theorem C10_amended_show_sign_positive_witness :
    ((0 : ℚ) < 5 / 4 ∧ lookups_in_table (LongDouble.finite (5 / 4)) 3 (-3) 3) ∧
    ∃ s, to_string_checked (LongDouble.finite (5 / 4)) RepresentationType.LATEX 3 false (-3) 3
        = some s ∧
      to_string_checked (LongDouble.finite (5 / 4)) RepresentationType.LATEX 3 true (-3) 3
        = some ("+" ++ s) := by
  have he : exponent_of (5 / 4) 3 = 0 := by
    apply exponent_of_eq <;> simp [log10_arg, long_double_pow10, abs_div] <;>
      norm_num [abs_div]
  have ht : lookups_in_table (LongDouble.finite (5 / 4)) 3 (-3) 3 :=
    lookups_in_table_of_exponent _ 3 (-3) 3 (by decide) (by decide)
      (by rw [he]; decide) (by rw [he]; decide)
  exact ⟨⟨by norm_num, ht⟩,
    C10_amended_show_sign_positive.1 (5 / 4) RepresentationType.LATEX 3 (-3) 3 (by norm_num)
      (by decide) ht⟩

/-- Claim C11 (as stated, refuted): -3/1024 = -0.0029296875 is negative, but at precision
18 with thresholds -3 and 3 its exponent is -3 and line 74 looks up
`long_double_pow10 (20)`, outside the table's domain [0, 19]: the call has no defined
output, so it is not `"-"` followed by the output for the absolute value. -/
theorem C11_counterexample :
    (-3 / 1024 : ℚ) < 0 ∧
    20 ∈ pow10_lookups (LongDouble.finite (-3 / 1024)) 18 (-3) 3 ∧
    to_string_checked (LongDouble.finite (-3 / 1024)) RepresentationType.PLAIN 18 false (-3) 3
      = none ∧
    ¬ ∃ s, to_string_checked (LongDouble.finite (-(-3 / 1024))) RepresentationType.PLAIN 18
          false (-3) 3 = some s ∧
        to_string_checked (LongDouble.finite (-3 / 1024)) RepresentationType.PLAIN 18 false
          (-3) 3 = some ("-" ++ s) := by
  have he : exponent_of (-3 / 1024) 18 = -3 := by
    apply exponent_of_eq <;> simp [log10_arg, long_double_pow10, abs_div] <;>
      norm_num [abs_div]
  have h20 : 20 ∈ pow10_lookups (LongDouble.finite (-3 / 1024)) 18 (-3) 3 :=
    lookup_mem_of_exponent _ 18 (-3) 3 (-3) 20 (by decide) he (by decide)
  have hnone := to_string_checked_of_lookup (LongDouble.finite (-3 / 1024))
    RepresentationType.PLAIN 18 false (-3) 3 20 h20 (by decide)
  refine ⟨by norm_num, h20, hnone, ?_⟩
  rintro ⟨s, _, hs⟩
  rw [hnone] at hs
  exact Option.noConfusion hs

/-- Claim C11 (as amended): for every finite `x < 0` whose call stays in the power-of-ten
table, every mode, precision at least 1, `show_sign` and thresholds, the output is `"-"`
followed by the output for `-x` with `show_sign = false` (both exist, and the call for `-x`
stays in the table too): a negative value always carries its minus sign. -/
theorem C11_amended_negative_sign (q : ℚ) (rt : RepresentationType) (precision : Nat)
    (show_sign : Bool) (lim_inf lim_sup : Int) (hq : q < 0) (hp : 1 ≤ precision)
    (ht : lookups_in_table (LongDouble.finite q) precision lim_inf lim_sup) :
    lookups_in_table (LongDouble.finite (-q)) precision lim_inf lim_sup ∧
    ∃ s, to_string_checked (LongDouble.finite (-q)) rt precision false lim_inf lim_sup
        = some s ∧
      to_string_checked (LongDouble.finite q) rt precision show_sign lim_inf lim_sup
        = some ("-" ++ s) := by
  have htn := lookups_in_table_neg q precision lim_inf lim_sup ht
  refine ⟨htn, ?_⟩
  rw [to_string_checked_of_in_table _ _ _ _ _ _ ht,
    to_string_checked_of_in_table _ _ _ _ _ _ htn]
  obtain ⟨s, hs⟩ := to_string_total (-q) rt precision false lim_inf lim_sup hp
  refine ⟨s, hs, ?_⟩
  have hb0 := base_of_ne_zero q precision (ne_of_lt hq) hp
  have hminus : sign_of q show_sign = "-" := by
    simp [sign_of, hq, not_lt.mpr (le_of_lt hq)]
  have hnone : sign_of (-q) false = "" := by simp [sign_of, not_lt.mpr (le_of_lt hq)]
  rw [to_string_finite _ rt precision _ lim_inf lim_sup (by omega), hnone, exponent_of_neg,
    base_of_neg, scientific_neg] at hs
  rw [to_string_finite q rt precision _ lim_inf lim_sup (by omega), hminus,
    render_sign rt precision "-" _ _ _ (fun _ => hb0), hs]
  rfl

theorem C11_amended_negative_sign_witness :
    ((-5 / 4 : ℚ) < 0 ∧ lookups_in_table (LongDouble.finite (-5 / 4)) 3 (-3) 3) ∧
    ∃ s, to_string_checked (LongDouble.finite (-(-5 / 4))) RepresentationType.PLAIN 3 false
        (-3) 3 = some s ∧
      to_string_checked (LongDouble.finite (-5 / 4)) RepresentationType.PLAIN 3 true (-3) 3
        = some ("-" ++ s) := by
  have he : exponent_of (-5 / 4) 3 = 0 := by
    apply exponent_of_eq <;> simp [log10_arg, long_double_pow10, abs_div] <;>
      norm_num [abs_div]
  have ht : lookups_in_table (LongDouble.finite (-5 / 4)) 3 (-3) 3 :=
    lookups_in_table_of_exponent _ 3 (-3) 3 (by decide) (by decide)
      (by rw [he]; decide) (by rw [he]; decide)
  exact ⟨⟨by norm_num, ht⟩,
    (C11_amended_negative_sign (-5 / 4) RepresentationType.PLAIN 3 true (-3) 3 (by norm_num)
      (by decide) ht).2⟩

/-- Claim C14 (as stated, refuted): the value 3 at precision 19 makes line 58 look up
`long_double_pow10 (20)`, and 2^-70 (about 8.5e-22) at precision 3 makes line 74 look up
`long_double_pow10 (24)`; both lie outside the table's domain [0, 19], where the call is a
caller error with no defined output: the formatter is not total. -/
theorem C14_counterexample :
    20 ∈ pow10_lookups (LongDouble.finite 3) 19 (-3) 3 ∧
    to_string_checked (LongDouble.finite 3) RepresentationType.PLAIN 19 false (-3) 3 = none ∧
    24 ∈ pow10_lookups (LongDouble.finite (1 / 2 ^ 70)) 3 (-3) 3 ∧
    to_string_checked (LongDouble.finite (1 / 2 ^ 70)) RepresentationType.PLAIN 3 false (-3) 3
      = none ∧
    ¬ ∃ s, to_string_checked (LongDouble.finite 3) RepresentationType.PLAIN 19 false (-3) 3
      = some s := by
  have h20 : 20 ∈ pow10_lookups (LongDouble.finite 3) 19 (-3) 3 := by
    simp [pow10_lookups]
  have he : exponent_of (1 / 2 ^ 70) 3 = -22 := by
    apply exponent_of_eq <;> simp [log10_arg, long_double_pow10, abs_div] <;>
      norm_num [abs_div]
  have h24 : 24 ∈ pow10_lookups (LongDouble.finite (1 / 2 ^ 70)) 3 (-3) 3 :=
    lookup_mem_of_exponent _ 3 (-3) 3 (-22) 24 (by decide) he (by decide)
  have hnone := to_string_checked_of_lookup (LongDouble.finite 3)
    RepresentationType.PLAIN 19 false (-3) 3 20 h20 (by decide)
  refine ⟨h20, hnone, h24, to_string_checked_of_lookup _ _ _ _ _ _ 24 h24 (by decide), ?_⟩
  rintro ⟨s, hs⟩
  rw [hnone] at hs
  exact Option.noConfusion hs

/-- Claim C14 (as amended): on every call that stays in the power-of-ten table the
formatter is total and raises no `std::out_of_range`. For every value, precision at least 1
and thresholds of such a call an output exists; for a finite value the precision is at most
18 unless the value is zero, `base` is below `2^64` (the conversion to `unsigned long long`
is defined), the decimal string of `base` has
length at least 1 (the insert position of the scientific branch), in the fixed-point branch
that inserts at `exponent + 1` that position is at most the length of the decimal string of
`base`, and the counts `precision - 1` and (for a negative exponent) `-exponent - 1` are
non-negative. -/
theorem C14_amended_no_out_of_range (x : LongDouble) (rt : RepresentationType)
    (precision : Nat) (show_sign : Bool) (lim_inf lim_sup : Int) (hp : 1 ≤ precision)
    (ht : lookups_in_table x precision lim_inf lim_sup) :
    (∃ s, to_string_checked x rt precision show_sign lim_inf lim_sup = some s) ∧
    (∀ q, x = LongDouble.finite q →
      (q ≠ 0 → precision ≤ 18) ∧
      base_of q precision (exponent_of q precision) < 2 ^ 64 ∧
      1 ≤ (toString (base_of q precision (exponent_of q precision))).length ∧
      (scientific q precision lim_inf lim_sup = false →
        base_of q precision (exponent_of q precision) ≠ 0 →
        0 ≤ exponent_of q precision → exponent_of q precision + 1 < precision →
        0 ≤ exponent_of q precision + 1 ∧
        (exponent_of q precision + 1).toNat
          ≤ (toString (base_of q precision (exponent_of q precision))).length) ∧
      0 ≤ (precision : Int) - 1 ∧
      (exponent_of q precision < 0 → 0 ≤ -exponent_of q precision - 1)) := by
  have hp0 : precision ≠ 0 := by omega
  constructor
  · rw [to_string_checked_of_in_table _ _ _ _ _ _ ht]
    cases x with
    | inf negative => exact ⟨_, by simp [to_string, hp0]; rfl⟩
    | nan => exact ⟨_, by simp [to_string, hp0]; rfl⟩
    | finite q => exact to_string_total q rt precision show_sign lim_inf lim_sup hp
  · intro q hx
    rw [hx] at ht
    refine ⟨fun hq => precision_le_of_in_table q precision lim_inf lim_sup hq hp ht,
      base_of_lt_two_pow_64 q precision lim_inf lim_sup hp ht,
      toString_nat_length_pos _, ?_, by omega, fun h => by omega⟩
    intro _ hb0 he0 hep
    have hq : q ≠ 0 := by
      intro h
      rw [h, base_of_zero] at hb0
      exact hb0 rfl
    have hl := toString_nat_length_ge _ (precision - 1) (base_of_ge q precision hq hp)
    constructor <;> omega

theorem C14_amended_no_out_of_range_witness :
    lookups_in_table (LongDouble.finite (5 / 4)) 3 (-3) 3 ∧
    ∃ s, to_string_checked (LongDouble.finite (5 / 4)) RepresentationType.PLAIN 3 false (-3) 3
      = some s := by
  have he : exponent_of (5 / 4) 3 = 0 := by
    apply exponent_of_eq <;> simp [log10_arg, long_double_pow10, abs_div] <;>
      norm_num [abs_div]
  have ht : lookups_in_table (LongDouble.finite (5 / 4)) 3 (-3) 3 :=
    lookups_in_table_of_exponent _ 3 (-3) 3 (by decide) (by decide)
      (by rw [he]; decide) (by rw [he]; decide)
  exact ⟨ht, (C14_amended_no_out_of_range (LongDouble.finite (5 / 4))
    RepresentationType.PLAIN 3 false (-3) 3 (by decide) ht).1⟩

/-- Claim C15 (fails on the code): 5e19 (an exact `double`) at precision 1 with thresholds
-3 and 25 stays in the power-of-ten table (lookups 2, 19 and 19) and is rendered in
fixed-point notation with `exponent = 19 >= 0`, `exponent + 1 >= precision` and `base = 5`;
the `unsigned long long` product `5 * 10^19` of line 116 wraps modulo `2^64` and the output
is `"13106511852580896768"`, not the decimal string of `5 * 10^19`. The claim's own example,
123456 at precision 3 with `lim_sup = 10`, gives `"123000"`. -/
theorem C15_integer_branch_product_wraps :
    lookups_in_table (LongDouble.finite 50000000000000000000) 1 (-3) 25 ∧
    scientific 50000000000000000000 1 (-3) 25 = false ∧
    exponent_of 50000000000000000000 1 = 19 ∧
    base_of 50000000000000000000 1 (exponent_of 50000000000000000000 1) = 5 ∧
    to_string_checked (LongDouble.finite 50000000000000000000) RepresentationType.PLAIN 1 false
      (-3) 25 = some "13106511852580896768" ∧
    to_string_checked (LongDouble.finite 50000000000000000000) RepresentationType.PLAIN 1 false
        (-3) 25
      ≠ some (sign_of 50000000000000000000 false ++ toString
          (base_of 50000000000000000000 1 (exponent_of 50000000000000000000 1) *
            10 ^ (exponent_of 50000000000000000000 1 + 1 - 1).toNat)) ∧
    to_string_checked (LongDouble.finite 123456) RepresentationType.PLAIN 3 false (-3) 10
      = some "123000" := by
  have he : exponent_of 50000000000000000000 1 = 19 := by
    apply exponent_of_eq <;> simp [log10_arg, long_double_pow10] <;> norm_num
  have hb : base_of 50000000000000000000 1 19 = 5 := by
    simp [base_of, long_double_pow10]
    apply std_round_toNat_eq <;> norm_num
  have hs : scientific 50000000000000000000 1 (-3) 25 = false := by
    simp [scientific, log10_arg, long_double_pow10]
    norm_num
  have hg : sign_of 50000000000000000000 false = "" := by norm_num [sign_of]
  have ht : lookups_in_table (LongDouble.finite 50000000000000000000) 1 (-3) 25 :=
    lookups_in_table_of_exponent _ 1 (-3) 25 (by decide) (by decide)
      (by rw [he]; decide) (by rw [he]; decide)
  have hout : to_string_checked (LongDouble.finite 50000000000000000000)
      RepresentationType.PLAIN 1 false (-3) 25 = some "13106511852580896768" := by
    rw [to_string_checked_of_in_table _ _ _ _ _ _ ht,
      to_string_eval _ _ _ _ _ _ 19 5 false "" (by decide) he hb hs hg]
    decide
  refine ⟨ht, hs, he, by rw [he, hb], hout, ?_, ?_⟩
  · rw [hout, he, hb, hg]
    decide
  · have he2 : exponent_of 123456 3 = 5 := by
      apply exponent_of_eq <;> simp [log10_arg, long_double_pow10] <;> norm_num
    have hb2 : base_of 123456 3 5 = 123 := by
      simp [base_of, long_double_pow10]
      apply std_round_toNat_eq <;> norm_num
    have hs2 : scientific 123456 3 (-3) 10 = false := by
      simp [scientific, log10_arg, long_double_pow10]
      norm_num
    have hg2 : sign_of 123456 false = "" := by norm_num [sign_of]
    have ht2 : lookups_in_table (LongDouble.finite 123456) 3 (-3) 10 :=
      lookups_in_table_of_exponent _ 3 (-3) 10 (by decide) (by decide)
        (by rw [he2]; decide) (by rw [he2]; decide)
    rw [to_string_checked_of_in_table _ _ _ _ _ _ ht2,
      to_string_eval _ _ _ _ _ _ 5 123 false "" (by decide) he2 hb2 hs2 hg2]
    decide

/-- Claim C16 (as stated, refuted): 3/1024 = 0.0029296875 at precision 18 with thresholds
-3 and 3 is nonzero, selected for fixed-point notation and has the negative exponent -3,
but line 74 looks up `long_double_pow10 (20)`, outside the table's domain [0, 19]: the
call has no defined output, so it does not return the string of the claim. -/
theorem C16_counterexample :
    (3 / 1024 : ℚ) ≠ 0 ∧ scientific (3 / 1024) 18 (-3) 3 = false ∧
    exponent_of (3 / 1024) 18 < 0 ∧
    20 ∈ pow10_lookups (LongDouble.finite (3 / 1024)) 18 (-3) 3 ∧
    to_string_checked (LongDouble.finite (3 / 1024)) RepresentationType.PLAIN 18 false (-3) 3
      = none ∧
    to_string_checked (LongDouble.finite (3 / 1024)) RepresentationType.PLAIN 18 false (-3) 3
      ≠ some (sign_of (3 / 1024) false ++ "0." ++
          string_fill (-exponent_of (3 / 1024) 18 - 1).toNat '0' ++
          toString (base_of (3 / 1024) 18 (exponent_of (3 / 1024) 18))) := by
  have he : exponent_of (3 / 1024) 18 = -3 := by
    apply exponent_of_eq <;> simp [log10_arg, long_double_pow10, abs_div] <;>
      norm_num [abs_div]
  have hs : scientific (3 / 1024) 18 (-3) 3 = false := by
    simp [scientific, log10_arg, long_double_pow10, abs_div]
    norm_num [abs_div]
  have h20 : 20 ∈ pow10_lookups (LongDouble.finite (3 / 1024)) 18 (-3) 3 :=
    lookup_mem_of_exponent _ 18 (-3) 3 (-3) 20 (by decide) he (by decide)
  have hnone := to_string_checked_of_lookup (LongDouble.finite (3 / 1024))
    RepresentationType.PLAIN 18 false (-3) 3 20 h20 (by decide)
  refine ⟨by norm_num, hs, by rw [he]; decide, h20, hnone, ?_⟩
  rw [hnone]
  exact fun h => Option.noConfusion h

/-- Claim C16 (as amended): for every finite nonzero value and precision at least 1 whose
call stays in the power-of-ten table and is rendered in fixed-point notation with a
negative exponent, the output is
`sign ++ "0." ++ (-exponent - 1 characters '0') ++ decimal(base)`; for example 0.0123 (the
`double` nearest to it, 7090467253332109/2^59) at precision 3 with `lim_inf = -3` gives
`"0.0123"`. -/
theorem C16_amended_fixed_point_fraction :
    (∀ (q : ℚ) (rt : RepresentationType) (precision : Nat) (show_sign : Bool)
        (lim_inf lim_sup : Int), q ≠ 0 → 1 ≤ precision →
        lookups_in_table (LongDouble.finite q) precision lim_inf lim_sup →
        scientific q precision lim_inf lim_sup = false → exponent_of q precision < 0 →
        to_string_checked (LongDouble.finite q) rt precision show_sign lim_inf lim_sup
          = some (sign_of q show_sign ++ "0." ++
              string_fill (-exponent_of q precision - 1).toNat '0' ++
              toString (base_of q precision (exponent_of q precision)))) ∧
    to_string_checked (LongDouble.finite (7090467253332109 / 2 ^ 59)) RepresentationType.PLAIN
      3 false (-3) 3 = some "0.0123" := by
  constructor
  · intro q rt p ss li ls hq hp ht hs he
    have hb0 := base_of_ne_zero q p hq hp
    have hneg : ¬ exponent_of q p ≥ 0 := by omega
    rw [to_string_checked_of_in_table _ _ _ _ _ _ ht,
      to_string_finite q rt p ss li ls (by omega), hs]
    simp only [render, Bool.false_eq_true, if_false, if_neg hb0, if_neg hneg]
  · have he : exponent_of (7090467253332109 / 2 ^ 59) 3 = -2 := by
      apply exponent_of_eq <;> simp [log10_arg, long_double_pow10, abs_div] <;>
        norm_num [abs_div]
    have hb : base_of (7090467253332109 / 2 ^ 59) 3 (-2) = 123 := by
      simp [base_of, long_double_pow10]
      apply std_round_toNat_eq <;> norm_num [abs_div]
    have hs : scientific (7090467253332109 / 2 ^ 59) 3 (-3) 3 = false := by
      simp [scientific, log10_arg, long_double_pow10, abs_div]
      norm_num [abs_div]
    have hg : sign_of (7090467253332109 / 2 ^ 59) false = "" := by norm_num [sign_of]
    have ht : lookups_in_table (LongDouble.finite (7090467253332109 / 2 ^ 59)) 3 (-3) 3 :=
      lookups_in_table_of_exponent _ 3 (-3) 3 (by decide) (by decide)
        (by rw [he]; decide) (by rw [he]; decide)
    rw [to_string_checked_of_in_table _ _ _ _ _ _ ht,
      to_string_eval _ _ _ _ _ _ (-2) 123 false "" (by decide) he hb hs hg]
    decide

theorem C16_amended_fixed_point_fraction_witness :
    ((-3 : ℚ) / 256 ≠ 0 ∧ lookups_in_table (LongDouble.finite (-3 / 256)) 3 (-3) 3 ∧
      scientific (-3 / 256) 3 (-3) 3 = false ∧ exponent_of (-3 / 256) 3 < 0) ∧
    to_string_checked (LongDouble.finite (-3 / 256)) RepresentationType.LATEX 3 false (-3) 3
      = some "-0.0117" := by
  have he : exponent_of (-3 / 256) 3 = -2 := by
    apply exponent_of_eq <;> simp [log10_arg, long_double_pow10, abs_div] <;>
      norm_num [abs_div]
  have hb : base_of (-3 / 256) 3 (-2) = 117 := by
    simp [base_of, long_double_pow10]
    apply std_round_toNat_eq <;> norm_num [abs_div]
  have hs : scientific (-3 / 256) 3 (-3) 3 = false := by
    simp [scientific, log10_arg, long_double_pow10, abs_div]
    norm_num [abs_div]
  have hg : sign_of (-3 / 256) false = "-" := by norm_num [sign_of]
  have hneg : exponent_of (-3 / 256) 3 < 0 := by rw [he]; decide
  have ht : lookups_in_table (LongDouble.finite (-3 / 256)) 3 (-3) 3 :=
    lookups_in_table_of_exponent _ 3 (-3) 3 (by decide) (by decide)
      (by rw [he]; decide) (by rw [he]; decide)
  refine ⟨⟨by norm_num, ht, hs, hneg⟩, ?_⟩
  rw [C16_amended_fixed_point_fraction.1 (-3 / 256) RepresentationType.LATEX 3 false (-3) 3
    (by norm_num) (by decide) ht hs hneg, he, hb, hg]
  decide

/-- Claim C25 (fails on the code): the double 9.9970703125 = 10237/1024 at precision 3
with thresholds -3 and 3 stays in the power-of-ten table and is rendered in fixed-point
notation as `"1.000"` (empty sign), which denotes 1, while
`base * 10^(exponent - p + 1) = 1000 * 10^(-2) = 10`: the rounding carry that makes `base`
equal to `10^p` misplaces the decimal point. And for 5e19 at precision 1 with
`lim_sup = 25` the wrapped output `"13106511852580896768"` does not denote
`base * 10^(exponent - p + 1) = 5 * 10^19`. -/
theorem C25_carry_misplaces_decimal_point :
    lookups_in_table (LongDouble.finite (10237 / 1024)) 3 (-3) 3 ∧
    scientific (10237 / 1024) 3 (-3) 3 = false ∧
    sign_of (10237 / 1024) false = "" ∧
    to_string_checked (LongDouble.finite (10237 / 1024)) RepresentationType.PLAIN 3 false
      (-3) 3 = some "1.000" ∧
    decimal_value "1.000" = 1 ∧
    (base_of (10237 / 1024) 3 (exponent_of (10237 / 1024) 3) : ℚ) *
        (10 : ℚ) ^ (exponent_of (10237 / 1024) 3 - (3 : Nat) + 1) = 10 ∧
    decimal_value "13106511852580896768" ≠ (5 : ℚ) * (10 : ℚ) ^ ((19 : Int) - (1 : Nat) + 1) := by
  have he : exponent_of (10237 / 1024) 3 = 0 := by
    apply exponent_of_eq <;> simp [log10_arg, long_double_pow10, abs_div] <;> norm_num
  have hb : base_of (10237 / 1024) 3 0 = 1000 := by
    simp [base_of, long_double_pow10]
    apply std_round_toNat_eq <;> norm_num [abs_div]
  have hs : scientific (10237 / 1024) 3 (-3) 3 = false := by
    simp [scientific, log10_arg, long_double_pow10, abs_div]
    norm_num
  have hg : sign_of (10237 / 1024) false = "" := by norm_num [sign_of]
  have ht : lookups_in_table (LongDouble.finite (10237 / 1024)) 3 (-3) 3 :=
    lookups_in_table_of_exponent _ 3 (-3) 3 (by decide) (by decide)
      (by rw [he]; decide) (by rw [he]; decide)
  have hd1 : decimal_value "1.000" = 1 := by
    have h := decimal_value_of_parts ['1'] ['0', '0', '0'] (by decide)
    have hs : ("1.000" : String) = ⟨['1'] ++ '.' :: ['0', '0', '0']⟩ := by decide
    rw [hs, h]
    have : digits_value (['1'] ++ ['0', '0', '0']) = 1000 := by decide
    rw [this]
    norm_num
  have hd2 : decimal_value "13106511852580896768" = 13106511852580896768 := by
    have h := decimal_value_of_integer 13106511852580896768
    have hs : toString (13106511852580896768 : Nat) = "13106511852580896768" := by decide
    rw [hs] at h
    rw [h]
    norm_num
  refine ⟨ht, hs, hg, ?_, hd1, ?_, ?_⟩
  · rw [to_string_checked_of_in_table _ _ _ _ _ _ ht,
      to_string_eval _ _ _ _ _ _ 0 1000 false "" (by decide) he hb hs hg]
    decide
  · rw [he, hb]
    norm_num
  · rw [hd2]
    norm_num

/-- Claim C27 (as stated, refuted): 5e18 (an exact `double`) at precision 19 with
`lim_sup = 19` meets every premise (fixed-point notation, `base != 0`, `exponent = 18 >= 0`,
`exponent + 1 >= 19`), but line 58 looks up `long_double_pow10 (20)`, outside the table's
domain [0, 19]: the call has no defined output, so no integer is printed. -/
theorem C27_counterexample :
    (19 : Nat) ≤ 19 ∧ (19 : Int) ≤ 19 ∧
    scientific 5000000000000000000 19 (-3) 19 = false ∧
    base_of 5000000000000000000 19 (exponent_of 5000000000000000000 19) ≠ 0 ∧
    0 ≤ exponent_of 5000000000000000000 19 ∧
    ((19 : Nat) : Int) ≤ exponent_of 5000000000000000000 19 + 1 ∧
    20 ∈ pow10_lookups (LongDouble.finite 5000000000000000000) 19 (-3) 19 ∧
    to_string_checked (LongDouble.finite 5000000000000000000) RepresentationType.PLAIN 19 false
      (-3) 19 = none ∧
    to_string_checked (LongDouble.finite 5000000000000000000) RepresentationType.PLAIN 19 false
        (-3) 19
      ≠ some (sign_of 5000000000000000000 false ++ toString
          (base_of 5000000000000000000 19 (exponent_of 5000000000000000000 19) *
            long_pow10 (exponent_of 5000000000000000000 19 + 1 - (19 : Nat)).toNat)) := by
  have he : exponent_of 5000000000000000000 19 = 18 := by
    apply exponent_of_eq <;> simp [log10_arg, long_double_pow10] <;> norm_num
  have hb : base_of 5000000000000000000 19 18 = 5000000000000000000 := by
    simp [base_of, long_double_pow10]
    apply std_round_toNat_eq <;> norm_num
  have hs : scientific 5000000000000000000 19 (-3) 19 = false := by
    simp [scientific, log10_arg, long_double_pow10]
    norm_num
  have h20 : 20 ∈ pow10_lookups (LongDouble.finite 5000000000000000000) 19 (-3) 19 := by
    simp [pow10_lookups]
  have hnone := to_string_checked_of_lookup (LongDouble.finite 5000000000000000000)
    RepresentationType.PLAIN 19 false (-3) 19 20 h20 (by decide)
  refine ⟨le_refl _, le_refl _, hs, by rw [he, hb]; decide, by rw [he]; decide,
    by rw [he]; decide, h20, hnone, ?_⟩
  rw [hnone]
  exact fun h => Option.noConfusion h

/-- Claim C27 (as amended): for every finite value, every precision `p` with
`1 <= p <= 18` and every thresholds with `lim_sup <= 19`, whenever the fixed-point integer
branch is taken (fixed-point notation, `base != 0`, `exponent >= 0`, `exponent + 1 >= p`) the
call stays in the power-of-ten table and the product `base * long_pow10 (exponent + 1 - p)`
is below `2^64`: the 64-bit multiplication does not wrap and the printed integer is the
mathematical product. -/
theorem C27_amended_integer_branch_no_wrap (q : ℚ) (rt : RepresentationType)
    (precision : Nat) (show_sign : Bool) (lim_inf lim_sup : Int) (hp : 1 ≤ precision)
    (hp18 : precision ≤ 18) (hls : lim_sup ≤ 19)
    (hs : scientific q precision lim_inf lim_sup = false)
    (hb : base_of q precision (exponent_of q precision) ≠ 0)
    (he : 0 ≤ exponent_of q precision)
    (hep : (precision : Int) ≤ exponent_of q precision + 1) :
    lookups_in_table (LongDouble.finite q) precision lim_inf lim_sup ∧
    base_of q precision (exponent_of q precision) *
        long_pow10 (exponent_of q precision + 1 - precision).toNat < 2 ^ 64 ∧
    to_string_checked (LongDouble.finite q) rt precision show_sign lim_inf lim_sup
      = some (sign_of q show_sign ++ toString
          (base_of q precision (exponent_of q precision) *
            long_pow10 (exponent_of q precision + 1 - precision).toNat)) := by
  have hlt := exponent_lt_of_not_scientific q precision lim_inf lim_sup hs
  have hble := base_of_le q precision
  have ht : lookups_in_table (LongDouble.finite q) precision lim_inf lim_sup :=
    lookups_in_table_of_exponent q precision lim_inf lim_sup hp hp18 (by omega) (by omega)
  have hprod : base_of q precision (exponent_of q precision) *
      long_pow10 (exponent_of q precision + 1 - precision).toNat < 2 ^ 64 := by
    unfold long_pow10
    have hk : (exponent_of q precision + 1 - precision).toNat + precision ≤ 19 := by omega
    calc base_of q precision (exponent_of q precision) *
          10 ^ (exponent_of q precision + 1 - precision).toNat
        ≤ 10 ^ precision * 10 ^ (exponent_of q precision + 1 - precision).toNat :=
          Nat.mul_le_mul_right _ hble
      _ = 10 ^ ((exponent_of q precision + 1 - precision).toNat + precision) := by
          rw [pow_add, mul_comm]
      _ ≤ 10 ^ 19 := Nat.pow_le_pow_right (by norm_num) hk
      _ < 2 ^ 64 := by norm_num
  refine ⟨ht, hprod, ?_⟩
  have he' : exponent_of q precision ≥ 0 := he
  have hep' : exponent_of q precision + 1 ≥ (precision : Int) := hep
  rw [to_string_checked_of_in_table _ _ _ _ _ _ ht,
    to_string_finite q rt precision show_sign lim_inf lim_sup (by omega), hs]
  simp only [render, Bool.false_eq_true, if_false, if_neg hb, if_pos he', if_pos hep',
    Nat.mod_eq_of_lt hprod]

theorem C27_amended_integer_branch_no_wrap_witness :
    (scientific 123456 3 (-3) 10 = false ∧ base_of 123456 3 (exponent_of 123456 3) ≠ 0 ∧
      0 ≤ exponent_of 123456 3 ∧ ((3 : Nat) : Int) ≤ exponent_of 123456 3 + 1) ∧
    base_of 123456 3 (exponent_of 123456 3) *
        long_pow10 (exponent_of 123456 3 + 1 - (3 : Nat)).toNat < 2 ^ 64 := by
  have he : exponent_of 123456 3 = 5 := by
    apply exponent_of_eq <;> simp [log10_arg, long_double_pow10] <;> norm_num
  have hb : base_of 123456 3 (exponent_of 123456 3) = 123 := by
    rw [he]
    simp [base_of, long_double_pow10]
    apply std_round_toNat_eq <;> norm_num
  have hs : scientific 123456 3 (-3) 10 = false := by
    simp [scientific, log10_arg, long_double_pow10]
    norm_num
  have hb0 : base_of 123456 3 (exponent_of 123456 3) ≠ 0 := by rw [hb]; decide
  have h0 : 0 ≤ exponent_of 123456 3 := by rw [he]; decide
  have h1 : ((3 : Nat) : Int) ≤ exponent_of 123456 3 + 1 := by rw [he]; decide
  exact ⟨⟨hs, hb0, h0, h1⟩,
    (C27_amended_integer_branch_no_wrap 123456 RepresentationType.PLAIN 3 false (-3) 10
      (by decide) (by decide) (by decide) hs hb0 h0 h1).2.1⟩

/-- Claim C28 (as stated, refuted): with the crossed thresholds `lim_inf = lim_sup = 3` the
value 2^80 (about 1.2e24, an exact `double`) at precision 3 has the exponent 24 and line 73
looks up `long_double_pow10 (22)`, outside the table's domain [0, 19]: the call has no
defined output, so no output in scientific notation is guaranteed. -/
theorem C28_counterexample :
    (3 : Int) ≤ 3 ∧
    22 ∈ pow10_lookups (LongDouble.finite (2 ^ 80)) 3 3 3 ∧
    to_string_checked (LongDouble.finite (2 ^ 80)) RepresentationType.PLAIN 3 false 3 3
      = none ∧
    ¬ ∃ s, to_string_checked (LongDouble.finite (2 ^ 80)) RepresentationType.PLAIN 3 false
        3 3 = some s ∧ contains s "10^" := by
  have he : exponent_of (2 ^ 80) 3 = 24 := by
    apply exponent_of_eq <;> simp [log10_arg, long_double_pow10] <;> norm_num
  have h22 : 22 ∈ pow10_lookups (LongDouble.finite (2 ^ 80)) 3 3 3 :=
    lookup_mem_of_exponent _ 3 3 3 24 22 (by decide) he (by decide)
  have hnone := to_string_checked_of_lookup (LongDouble.finite (2 ^ 80))
    RepresentationType.PLAIN 3 false 3 3 22 h22 (by decide)
  refine ⟨le_refl _, h22, hnone, ?_⟩
  rintro ⟨s, hs, _⟩
  rw [hnone] at hs
  exact Option.noConfusion hs

/-- Claim C28 (as amended): for thresholds with `lim_inf >= lim_sup`, every finite value
(zero included) and every precision at least 1 whose call stays in the power-of-ten table,
scientific notation is selected: the condition `log10_x >= lim_sup || log10_x <= lim_inf`
holds whatever `log10_x` is, so the output exists and contains `10^`; the fixed-point branch
is unreachable. -/
theorem C28_amended_crossed_thresholds (q : ℚ) (rt : RepresentationType) (precision : Nat)
    (show_sign : Bool) (lim_inf lim_sup : Int) (hp : 1 ≤ precision)
    (hlim : lim_sup ≤ lim_inf)
    (ht : lookups_in_table (LongDouble.finite q) precision lim_inf lim_sup) :
    scientific q precision lim_inf lim_sup = true ∧
    ∃ s, to_string_checked (LongDouble.finite q) rt precision show_sign lim_inf lim_sup
        = some s ∧ contains s "10^" := by
  have hs : scientific q precision lim_inf lim_sup = true := by
    simp only [scientific, decide_eq_true_eq]
    by_cases h : (10 : ℚ) ^ lim_sup ≤ log10_arg q precision
    · exact Or.inl h
    · right
      push_neg at h
      exact le_trans (le_of_lt h) (zpow_le_zpow_right₀ (by norm_num) hlim)
  refine ⟨hs, ?_⟩
  rw [to_string_checked_of_in_table _ _ _ _ _ _ ht,
    to_string_finite q rt precision show_sign lim_inf lim_sup (by omega), hs]
  exact render_sci_contains _ _ _ _ _

theorem C28_amended_crossed_thresholds_witness :
    lookups_in_table (LongDouble.finite (5 / 4)) 3 2 2 ∧
    scientific (5 / 4) 3 2 2 = true ∧
    ∃ s, to_string_checked (LongDouble.finite (5 / 4)) RepresentationType.PLAIN 3 false 2 2
        = some s ∧ contains s "10^" := by
  have he : exponent_of (5 / 4) 3 = 0 := by
    apply exponent_of_eq <;> simp [log10_arg, long_double_pow10, abs_div] <;>
      norm_num [abs_div]
  have ht : lookups_in_table (LongDouble.finite (5 / 4)) 3 2 2 :=
    lookups_in_table_of_exponent _ 3 2 2 (by decide) (by decide)
      (by rw [he]; decide) (by rw [he]; decide)
  exact ⟨ht,
    C28_amended_crossed_thresholds (5 / 4) RepresentationType.PLAIN 3 false 2 2 (by decide)
      (by decide) ht⟩

end als.utilities
